import Mathlib

/-!
Verification development for the sui-move-analyzer function-analysis engine
(src/beta-2024/src/function_analyzer.rs).

The Rust source is shallowly embedded: each Rust method is translated to a
Lean function of the same name (grouped in namespaces named after the Rust
impl blocks), with machine strings as Lean String, Vec as List, HashSet as a
List of keys, and file IO replaced by an explicit association list from file
paths to file contents.  Definitions are executable so that concrete scenarios
evaluate by decide or rfl.
-/

set_option maxRecDepth 10000

namespace SuiMoveAnalyzer

/-- Location in source code, a pair of byte offsets (Rust struct Loc with
methods start and end). -/
structure Loc where
  start : Nat
  end_ : Nat
deriving DecidableEq, Repr

/-- Location information for a function in the source code (Rust struct
LocationInfo). -/
structure LocationInfo where
  file : String
  start_line : Nat
  end_line : Nat
deriving DecidableEq, Repr

/-- Information about a function parameter (Rust struct Parameter). -/
structure Parameter where
  name : String
  type_ : String
deriving DecidableEq, Repr

/-- Information about a function call made within the analyzed function
(Rust struct FunctionCall). -/
structure FunctionCall where
  file : String
  function : String
  module : String
deriving DecidableEq, Repr

/-- Main result structure containing function analysis information
(Rust struct FunctionAnalysis). -/
structure FunctionAnalysis where
  contract : String
  function : String
  source : String
  location : LocationInfo
  parameters : List Parameter
  calls : List FunctionCall
deriving DecidableEq, Repr

/-- Error types that can occur during function analysis (Rust enum
AnalyzerError).  IO and JSON payloads are modelled as their display
strings. -/
inductive AnalyzerError where
  | InvalidProjectPath (path : String)
  | InvalidMoveToml
  | FunctionNotFound (name : String)
  | ParseError (msg : String)
  | TypeResolutionError (msg : String)
  | IoError (msg : String)
  | JsonError (msg : String)
  | AnalysisError (msg : String)
deriving DecidableEq, Repr

/-- The thiserror display form of an AnalyzerError, used when errors are
interpolated into format strings. -/
def AnalyzerError.display : AnalyzerError → String
  | .InvalidProjectPath p => "Invalid project path: " ++ p
  | .InvalidMoveToml => "Move.toml file not found or invalid"
  | .FunctionNotFound n => "Function not found: " ++ n
  | .ParseError m => "Parse error: " ++ m
  | .TypeResolutionError m => "Type resolution error: " ++ m
  | .IoError m => "IO error: " ++ m
  | .JsonError m => "JSON error: " ++ m
  | .AnalysisError m => "Analysis error: " ++ m

/-- The leading segment of a name access chain (move_compiler parser AST
LeadingNameAccess_).  An anonymous address is its byte list. -/
inductive LeadingNameAccess where
  | Name (s : String)
  | GlobalAddress (s : String)
  | AnonymousAddress (bytes : List Nat)
deriving DecidableEq, Repr

-- Move parser AST types together with name-access chains; mutually
-- recursive because path entries carry type arguments (move_compiler parser
-- AST Type_, PathEntry, NamePath, NameAccessChain_).
mutual
/-- Move parser AST type (move_compiler parser AST Type_). -/
inductive MoveType where
  | Unit
  | Apply (chain : NameAccessChain)
  | Ref (is_mut : Bool) (inner : MoveType)
  | Fun (params : List MoveType) (return_type : MoveType)
  | Multiple (types : List MoveType)
  | UnresolvedError

/-- One segment of a name access chain with optional type arguments
(move_compiler parser AST PathEntry). -/
inductive PathEntry where
  | mk (name : String) (tyargs : Option (List MoveType))

/-- A rooted multi-segment name path (move_compiler parser AST NamePath). -/
inductive NamePath where
  | mk (root : LeadingNameAccess) (entries : List PathEntry)

/-- A name access chain, either a single entry or a rooted path
(move_compiler parser AST NameAccessChain_). -/
inductive NameAccessChain where
  | Single (entry : PathEntry)
  | Path (path : NamePath)
end

/-- The name carried by a path entry. -/
def PathEntry.name : PathEntry → String
  | .mk n _ => n

/-- The optional type arguments carried by a path entry. -/
def PathEntry.tyargs : PathEntry → Option (List MoveType)
  | .mk _ t => t

/-- The root of a name path. -/
def NamePath.root : NamePath → LeadingNameAccess
  | .mk r _ => r

/-- The non-root entries of a name path. -/
def NamePath.entries : NamePath → List PathEntry
  | .mk _ e => e

/-- One lowercase hexadecimal digit. -/
def hex_digit (n : Nat) : String :=
  (String.mk [("0123456789abcdef".toList).getD (n % 16) '0'])

/-- Lowercase hex encoding of a byte list, two digits per byte (Rust
hex encode of AccountAddress bytes). -/
def hex_encode (bytes : List Nat) : String :=
  String.join (bytes.map (fun b => hex_digit ((b % 256) / 16) ++ hex_digit (b % 16)))

namespace TypeResolver

/-- Check if a name represents a basic Move type
(TypeResolver::is_basic_move_type). -/
def is_basic_move_type (name : String) : Bool :=
  name = "u8" || name = "u16" || name = "u32" || name = "u64" ||
  name = "u128" || name = "u256" ||
  name = "bool" || name = "address" || name = "signer" || name = "vector"

/-- Format unit type (TypeResolver::format_unit_type). -/
def format_unit_type : String := "()"

/-- Format unresolved error types (TypeResolver::format_unresolved_error). -/
def format_unresolved_error : String := "UnresolvedError"

/-- Format a path-based name access: the source only renders the leading
name of the path (TypeResolver::format_path_name_access). -/
def format_path_name_access (name_path : NamePath) : String :=
  match name_path.root with
  | .Name name => name
  | .GlobalAddress name => "@" ++ name
  | .AnonymousAddress addr => "0x" ++ hex_encode addr

mutual
/-- Convert a Move AST type to its string representation
(TypeResolver::type_to_string). -/
def type_to_string : MoveType → String
  | .Unit => format_unit_type
  | .Apply name_access_chain => name_access_chain_to_string name_access_chain
  | .Ref is_mut inner_type =>
      "&" ++ (if is_mut then "mut " else "") ++ type_to_string inner_type
  | .Fun params return_type =>
      "|" ++ String.intercalate ", " (type_list_to_strings params) ++ "| -> " ++
        type_to_string return_type
  | .Multiple types =>
      "(" ++ String.intercalate ", " (type_list_to_strings types) ++ ")"
  | .UnresolvedError => format_unresolved_error

/-- Map type_to_string over a list of types (the iterator maps in the
source). -/
def type_list_to_strings : List MoveType → List String
  | [] => []
  | t :: ts => type_to_string t :: type_list_to_strings ts

/-- Convert a name access chain to its string representation
(TypeResolver::name_access_chain_to_string). -/
def name_access_chain_to_string : NameAccessChain → String
  | .Single path_entry => format_single_name_entry path_entry
  | .Path name_path => format_path_name_access name_path

/-- Format a single name entry, including type arguments for generic types
(TypeResolver::format_single_name_entry). -/
def format_single_name_entry : PathEntry → String
  | .mk name tyargs =>
      if is_basic_move_type name then name
      else
        match tyargs with
        | some type_args =>
            name ++ "<" ++ String.intercalate ", " (type_list_to_strings type_args) ++ ">"
        | none => name
end

end TypeResolver

-- The parser expression grammar (move_compiler parser AST Exp_,
-- SequenceItem_, Sequence, MatchArm).  Only payloads that the analyzer
-- inspects are kept; location fields and operator details are dropped.
mutual
/-- Move parser AST expression (move_compiler parser AST Exp_). -/
inductive Exp where
  | Call (name_chain : NameAccessChain) (args : List Exp)
  | Dot (receiver : Exp) (field : String)
  | DotCall (receiver : Exp) (method_name : String)
      (type_args : Option (List MoveType)) (args : List Exp)
  | BinopExp (left : Exp) (op : String) (right : Exp)
  | UnaryExp (op : String) (exp : Exp)
  | IfElse (condition : Exp) (then_exp : Exp) (else_exp : Option Exp)
  | While (condition : Exp) (body : Exp)
  | Loop (body : Exp)
  | Block (sequence : Sequence)
  | Assign (lhs : Exp) (rhs : Exp)
  | Vector (elements : List Exp)
  | Pack (name : NameAccessChain) (fields : List (String × Exp))
  | Borrow (mutable : Bool) (exp : Exp)
  | Dereference (exp : Exp)
  | Index (base : Exp) (indices : List Exp)
  | Cast (exp : Exp) (type_ : MoveType)
  | Annotate (exp : Exp) (type_ : MoveType)
  | ExpList (expressions : List Exp)
  | Abort (exp : Option Exp)
  | MoveExp (exp : Exp)
  | CopyExp (exp : Exp)
  | Quant (ranges : List Exp) (condition : Option Exp) (body : Exp)
  | Spec
  | Match (scrutinee : Exp) (arms : List MatchArm)
  | Labeled (label : String) (exp : Exp)
  | Lambda (return_type : Option MoveType) (body : Exp)
  | Parens (exp : Exp)
  | Return (exp : Option Exp)
  | Break (exp : Option Exp)
  | Continue
  | UnresolvedError
  | DotUnresolved (exp : Exp)
  | Value (literal : String)
  | Name (chain : NameAccessChain)
  | Unit

/-- One arm of a match expression: guard and right-hand side (the pattern
cannot contain calls and is dropped). -/
inductive MatchArm where
  | mk (guard : Option Exp) (rhs : Exp)

/-- One statement of a block (move_compiler parser AST SequenceItem_).
Declare carries no expression in the parser AST. -/
inductive SequenceItem where
  | Seq (exp : Exp)
  | Declare
  | Bind (exp : Exp)

/-- A block of statements with an optional trailing expression; the fields
mirror sequence.1 and sequence.3 in the source. -/
inductive Sequence where
  | mk (items : List SequenceItem) (final_exp : Option Exp)
end

/-- The statements of a sequence. -/
def Sequence.items : Sequence → List SequenceItem
  | .mk i _ => i

/-- The optional trailing expression of a sequence. -/
def Sequence.final_exp : Sequence → Option Exp
  | .mk _ f => f

/-- Declared requirement on a generic type parameter (move_compiler parser
AST Ability_). -/
inductive Ability where
  | Copy
  | Drop
  | Store
  | Key
deriving DecidableEq, Repr

/-- Function visibility (move_compiler parser AST Visibility). -/
inductive Visibility where
  | Public
  | Friend
  | Package
  | Internal
deriving DecidableEq, Repr

/-- A function body: native or a defined statement sequence (move_compiler
parser AST FunctionBody_). -/
inductive FunctionBody where
  | Native
  | Defined (sequence : Sequence)

/-- A function signature: type parameters with ability constraints, ordered
parameters, and the return type (move_compiler parser AST
FunctionSignature). -/
structure FunctionSignature where
  type_parameters : List (String × List Ability)
  parameters : List (String × MoveType)
  return_type : MoveType

/-- A parsed function definition (move_compiler parser AST Function).
The entry field models entry.is_some() of the Option entry marker. -/
structure Function where
  name : String
  visibility : Visibility
  entry : Bool
  signature : FunctionSignature
  body : FunctionBody
  loc : Loc

/-- A member of a module; only functions matter to the analyzer
(move_compiler parser AST ModuleMember). -/
inductive ModuleMember where
  | Function (f : Function)
  | Other

/-- A parsed module definition: optional address declaration, name, and
members (move_compiler parser AST ModuleDefinition). -/
structure ModuleDefinition where
  address : Option LeadingNameAccess
  name : String
  members : List ModuleMember

/-- A top-level parsed definition (move_compiler parser AST Definition). -/
inductive Definition where
  | Module (m : ModuleDefinition)
  | Other

/-- The parsed files of one manifest: source files and test files, each a
list of file path and definitions pairs (the fields sources and tests of
the source defs entry in Project.modules). -/
structure SourceDefs where
  sources : List (String × List Definition)
  tests : List (String × List Definition)

/-- The loaded project: the ordered collection of parsed source-definition
groups (field modules of the Rust Project). -/
structure Project where
  modules : List SourceDefs

/-- Information about a module containing functions (Rust struct
ModuleInfo); the address is a 32 byte account address. -/
structure ModuleInfo where
  address : List Nat
  name : String
  file_path : String
deriving DecidableEq, Repr

/-- The all-zero account address (AccountAddress::ZERO). -/
def zero_address : List Nat := List.replicate 32 0

/-- Information about a function definition found in the project (Rust
struct FunctionDef). -/
structure FunctionDef where
  function : Function
  module_info : ModuleInfo
  location : Loc

/-- A file system model: an association list from file paths to contents,
standing in for fs read_to_string. -/
def FileSystem := List (String × String)

/-- Read a file from the file system model; none models an IO error. -/
def fs_read (fs : FileSystem) (path : String) : Option String :=
  (fs.find? (fun p => p.1 = path)).map (fun p => p.2)

/-- The Rust str starts_with, modelled over character lists so that it
evaluates by kernel reduction. -/
def str_starts_with (s pre : String) : Bool :=
  pre.data.isPrefixOf s.data

/-- The Rust str ends_with, modelled over character lists. -/
def str_ends_with (s suffix : String) : Bool :=
  suffix.data.isSuffixOf s.data

/-- Drop the last n characters of a string. -/
def str_drop_right (s : String) (n : Nat) : String :=
  ⟨s.data.take (s.data.length - n)⟩

/-- The Rust str trim: remove whitespace from both ends. -/
def str_trim (s : String) : String :=
  ⟨((s.data.dropWhile Char.isWhitespace).reverse.dropWhile
      Char.isWhitespace).reverse⟩

/-- Split a character list at every occurrence of the given character. -/
def split_char (c : Char) : List Char → List (List Char)
  | [] => [[]]
  | x :: xs =>
      let r := split_char c xs
      if x = c then [] :: r
      else
        match r with
        | y :: ys => (x :: y) :: ys
        | [] => [[x]]

/-- The Rust str lines iterator: split on newline, drop the final empty
segment produced by a trailing newline, strip one trailing carriage return
per line. -/
def rust_lines (content : String) : List String :=
  if content = "" then []
  else
    let parts := (split_char '\n' content.data).map String.mk
    let parts := if str_ends_with content "\n" then parts.dropLast else parts
    parts.map (fun s => if str_ends_with s "\r" then str_drop_right s 1 else s)

namespace FunctionParser

/-- Extract module information from a module definition (the ModuleInfo
construction inside FunctionParser::search_in_module): an anonymous address
is taken verbatim, named and global addresses fall back to the zero
address. -/
def module_info_of (module_def : ModuleDefinition) (file_path : String) : ModuleInfo :=
  { address :=
      match module_def.address with
      | some (.AnonymousAddress bytes) => bytes
      | some (.Name _) => zero_address
      | some (.GlobalAddress _) => zero_address
      | none => zero_address
    name := module_def.name
    file_path := file_path }

/-- Search for functions within a specific module
(FunctionParser::search_in_module). -/
def search_in_module (module_def : ModuleDefinition) (function_name : String)
    (file_path : String) : List FunctionDef :=
  let module_info := module_info_of module_def file_path
  module_def.members.filterMap (fun member =>
    match member with
    | .Function function =>
        if function.name = function_name then
          some { function := function, module_info := module_info,
                 location := function.loc }
        else none
    | .Other => none)

/-- Search for functions in a list of definitions
(FunctionParser::search_in_definitions). -/
def search_in_definitions (definitions : List Definition) (function_name : String)
    (file_path : String) : List FunctionDef :=
  definitions.flatMap (fun definition =>
    match definition with
    | .Module module_def => search_in_module module_def function_name file_path
    | .Other => [])

/-- Find all functions with the given name across all modules in the
project, sources before tests within each group
(FunctionParser::find_functions). -/
def find_functions (project : Project) (name : String) : List FunctionDef :=
  project.modules.flatMap (fun source_defs =>
    source_defs.sources.flatMap
      (fun fd => search_in_definitions fd.2 name fd.1) ++
    source_defs.tests.flatMap
      (fun fd => search_in_definitions fd.2 name fd.1))

/-- Convert an ability to its string representation
(FunctionParser::ability_to_string). -/
def ability_to_string : Ability → String
  | .Copy => "copy"
  | .Drop => "drop"
  | .Store => "store"
  | .Key => "key"

/-- Extract a function signature as a string with visibility, entry and
native markers, generic clause, parameters and return type
(FunctionParser::extract_function_signature).  The successive appends
mirror the push_str calls of the source. -/
def extract_function_signature (func_def : FunctionDef) : String :=
  let function := func_def.function
  let signature := ""
  let signature := signature ++
    (match function.visibility with
     | .Public => "public "
     | .Friend => "public(friend) "
     | .Package => "public(package) "
     | .Internal => "")
  let signature := if function.entry then signature ++ "entry " else signature
  let signature :=
    match function.body with
    | .Native => signature ++ "native "
    | .Defined _ => signature
  let signature := signature ++ "fun " ++ function.name
  let signature :=
    if function.signature.type_parameters.isEmpty then signature
    else
      signature ++ "<" ++
        String.intercalate ", "
          (function.signature.type_parameters.map (fun tp =>
            tp.1 ++
              (if tp.2.isEmpty then ""
               else ": " ++ String.intercalate " + " (tp.2.map ability_to_string)))) ++
        ">"
  let signature := signature ++ "(" ++
    String.intercalate ", "
      (function.signature.parameters.map (fun p =>
        p.1 ++ ": " ++ TypeResolver.type_to_string p.2)) ++ ")"
  signature ++ ": " ++ TypeResolver.type_to_string function.signature.return_type

/-- Extract parameter information from a function
(FunctionParser::extract_parameters). -/
def extract_parameters (func_def : FunctionDef) : List Parameter :=
  func_def.function.signature.parameters.map (fun p =>
    { name := p.1, type_ := TypeResolver.type_to_string p.2 })

/-- Walk the characters counting newlines until the running byte offset
reaches the target (the loop body of
FunctionParser::get_line_number_from_offset). -/
def line_walk (offset : Nat) : List Char → Nat → Nat → Nat
  | [], line_number, _ => line_number
  | ch :: rest, line_number, current_offset =>
      if current_offset ≥ offset then line_number
      else
        line_walk offset rest
          (if ch = '\n' then line_number + 1 else line_number)
          (current_offset + ch.utf8Size)

/-- Get the 1-indexed line number from a byte offset in file content
(FunctionParser::get_line_number_from_offset; the source result is always
Ok). -/
def get_line_number_from_offset (content : String) (offset : Nat) : Nat :=
  line_walk offset content.data 1 0

/-- Is this trimmed line blank or a documentation-comment line (the
conditions of the backward scan in
FunctionParser::extract_function_with_docs)? -/
def is_doc_or_blank (line : String) : Bool :=
  let t := str_trim line
  str_starts_with t "///" || str_starts_with t "/**" ||
    str_starts_with t "*" || t = ""

/-- The backward scan over documentation lines (the while loop of
FunctionParser::extract_function_with_docs).  The list index used by the
source is doc_start - 1; a none result models an out-of-bounds index, which
would panic in the source. -/
def doc_scan (lines : List String) : Nat → Nat → Option (Nat × Nat)
  | 0, actual_start_line => some (0, actual_start_line)
  | doc_start + 1, actual_start_line =>
      match lines.get? doc_start with
      | none => none
      | some line =>
          if is_doc_or_blank line then
            doc_scan lines doc_start (actual_start_line - 1)
          else some (doc_start + 1, actual_start_line)

/-- The backward doc scan never reads out of bounds when it starts at an
index within the file: converting offsets to lines and slicing source text
cannot panic. -/
theorem doc_scan_isSome (lines : List String) :
    ∀ doc_start actual_start_line, doc_start ≤ lines.length →
      (doc_scan lines doc_start actual_start_line).isSome := by
  intro doc_start
  induction doc_start with
  | zero => intro a _; simp [doc_scan]
  | succ n ih =>
      intro a h
      have hlt : n < lines.length := h
      have hget : lines.get? n = some (lines.get ⟨n, hlt⟩) := List.get?_eq_get hlt
      rw [doc_scan, hget]
      simp only [List.get_eq_getElem] at hget ⊢
      by_cases hb : is_doc_or_blank lines[n]
      · simp only [hb, if_true]
        exact ih (a - 1) (Nat.le_of_lt hlt)
      · simp [hb]

/-- The bounded slice loop of FunctionParser::extract_function_with_docs:
collect lines[i] for i in the index range, skipping indices at or past the
end of the file. -/
def slice_lines (lines : List String) (start0 stop : Nat) : List String :=
  (List.range' start0 (stop - start0)).filterMap (fun i => lines.get? i)

/-- Extract the function source lines including preceding documentation
comments, returning the extended 1-indexed start line and the collected
lines (FunctionParser::extract_function_with_docs). -/
def extract_function_with_docs (file_content : String) (start_line end_line : Nat) :
    Except AnalyzerError (Nat × List String) :=
  let lines := rust_lines file_content
  if h : start_line = 0 ∨ start_line > lines.length ∨ end_line > lines.length then
    .error (.AnalysisError "Invalid line numbers for function location")
  else
    let scan := (doc_scan lines (start_line - 1) start_line).get
      (doc_scan_isSome lines (start_line - 1) start_line (by omega))
    let actual_start_line := scan.2
    .ok (actual_start_line, slice_lines lines (actual_start_line - 1) end_line)

/-- Extract the complete source code of a function including documentation
comments (FunctionParser::extract_source_code). -/
def extract_source_code (fs : FileSystem) (func_def : FunctionDef) :
    Except AnalyzerError String :=
  match fs_read fs func_def.module_info.file_path with
  | none => .error (.IoError func_def.module_info.file_path)
  | some file_content =>
      let start_line := get_line_number_from_offset file_content func_def.location.start
      let end_line := get_line_number_from_offset file_content func_def.location.end_
      match extract_function_with_docs file_content start_line end_line with
      | .error e => .error e
      | .ok r => .ok (String.intercalate "\n" r.2)

/-- Calculate line numbers for a function: the start extended backward over
documentation lines, the end unextended
(FunctionParser::calculate_line_numbers). -/
def calculate_line_numbers (fs : FileSystem) (func_def : FunctionDef) :
    Except AnalyzerError (Nat × Nat) :=
  match fs_read fs func_def.module_info.file_path with
  | none => .error (.IoError func_def.module_info.file_path)
  | some file_content =>
      let start_line := get_line_number_from_offset file_content func_def.location.start
      let end_line := get_line_number_from_offset file_content func_def.location.end_
      match extract_function_with_docs file_content start_line end_line with
      | .error e => .error e
      | .ok r => .ok (r.1, end_line)

/-- Create a LocationInfo for a function using the doc-extended start line
(FunctionParser::create_location_info; note that the coordinator does not
use this function). -/
def create_location_info (fs : FileSystem) (func_def : FunctionDef) :
    Except AnalyzerError LocationInfo :=
  match calculate_line_numbers fs func_def with
  | .error e => .error e
  | .ok r =>
      .ok { file := func_def.module_info.file_path, start_line := r.1,
            end_line := r.2 }

end FunctionParser

namespace CallAnalyzer

/-- Check if a function name represents a built-in Move function
(CallAnalyzer::is_builtin_function). -/
def is_builtin_function (function_name : String) : Bool :=
  function_name = "assert" || function_name = "assert!" ||
  function_name = "move_to" || function_name = "move_from" ||
  function_name = "borrow_global" || function_name = "borrow_global_mut" ||
  function_name = "exists" || function_name = "freeze" ||
  function_name = "copy" || function_name = "move" ||
  function_name = "abort" || function_name = "return"

/-- Check if a function name represents a member method pattern: getter
prefixes or a fixed set of common accessor names
(CallAnalyzer::is_member_method_pattern). -/
def is_member_method_pattern (function_name : String) : Bool :=
  str_starts_with function_name "get_" ||
  str_starts_with function_name "is_" ||
  str_starts_with function_name "has_" ||
  function_name = "is_null" || function_name = "is_empty" ||
  function_name = "length" || function_name = "size" ||
  function_name = "capacity" ||
  function_name = "borrow" || function_name = "borrow_mut" ||
  function_name = "value" || function_name = "inner" ||
  function_name = "price" || function_name = "timestamp" ||
  function_name = "expire_timestamp" || function_name = "amount" ||
  function_name = "balance" ||
  function_name = "destroy" || function_name = "extract" ||
  function_name = "split" || function_name = "join" ||
  function_name = "merge"

/-- Check if a module name represents a standard library module
(CallAnalyzer::is_std_module). -/
def is_std_module (module_name : String) : Bool :=
  module_name = "vector" || module_name = "option" ||
  module_name = "string" || module_name = "ascii" ||
  module_name = "type_name" ||
  module_name = "bcs" || module_name = "hash" || module_name = "debug" ||
  module_name = "signer" || module_name = "error" ||
  module_name = "fixed_point32" || module_name = "bit_vector" ||
  module_name = "table" || module_name = "bag" ||
  module_name = "object_table" || module_name = "linked_table" ||
  module_name = "priority_queue"

/-- Check if a function call should be included in call graph analysis
(CallAnalyzer::should_include_in_call_graph). -/
def should_include_in_call_graph (function_name module_name : String) : Bool :=
  if is_builtin_function function_name then false
  else if is_std_module module_name then false
  else if is_member_method_pattern function_name then false
  else true

/-- Find a module definition in a list of parsed definitions by name. -/
def find_named_module (definitions : List Definition) (name : String) :
    Option ModuleDefinition :=
  definitions.findSome? (fun definition =>
    match definition with
    | .Module module_def =>
        if module_def.name = name then some module_def else none
    | .Other => none)

/-- Find a module definition matching both file path and module name across
a file list. -/
def find_module_in_files (files : List (String × List Definition))
    (file_path name : String) : Option ModuleDefinition :=
  files.findSome? (fun fd =>
    if fd.1 = file_path then find_named_module fd.2 name else none)

/-- Find a module definition by the current module info, searching sources
then tests of each group (CallAnalyzer::find_module_definition). -/
def find_module_definition (project : Project) (module_info : ModuleInfo) :
    Option ModuleDefinition :=
  project.modules.findSome? (fun source_defs =>
    match find_module_in_files source_defs.sources module_info.file_path
        module_info.name with
    | some m => some m
    | none => find_module_in_files source_defs.tests module_info.file_path
        module_info.name)

/-- Find a module by name together with its file path across a file list. -/
def find_module_by_name_in_files (files : List (String × List Definition))
    (module_name : String) : Option (ModuleDefinition × String) :=
  files.findSome? (fun fd =>
    (find_named_module fd.2 module_name).map (fun m => (m, fd.1)))

/-- Find a module by name across all project files, sources then tests of
each group (CallAnalyzer::find_module_by_name). -/
def find_module_by_name (project : Project) (module_name : String) :
    Option (ModuleDefinition × String) :=
  project.modules.findSome? (fun source_defs =>
    match find_module_by_name_in_files source_defs.sources module_name with
    | some r => some r
    | none => find_module_by_name_in_files source_defs.tests module_name)

/-- Generate a signature string for a called function: name, named
parameters with rendered types, rendered return type
(CallAnalyzer::generate_function_signature). -/
def generate_function_signature (function : Function) : String :=
  function.name ++ "(" ++
    String.intercalate ", "
      (function.signature.parameters.map (fun p =>
        p.1 ++ ": " ++ TypeResolver.type_to_string p.2)) ++
    ")" ++ ": " ++ TypeResolver.type_to_string function.signature.return_type

/-- Find a function of the given name among module members and build the
call record (the member loop shared by the resolvers). -/
def find_function_member (members : List ModuleMember) (function_name : String) :
    Option Function :=
  members.findSome? (fun member =>
    match member with
    | .Function function =>
        if function.name = function_name then some function else none
    | .Other => none)

/-- Resolve a function call within the current module
(CallAnalyzer::resolve_local_function_call). -/
def resolve_local_function_call (project : Project) (function_name : String)
    (current_module : ModuleInfo) : Option FunctionCall :=
  match find_module_definition project current_module with
  | some module_def =>
      (find_function_member module_def.members function_name).map (fun function =>
        { file := current_module.file_path
          function := generate_function_signature function
          module := current_module.name })
  | none => none

/-- Resolve a function call from an imported module: reserved for future
work, currently always declines
(CallAnalyzer::resolve_imported_function_call). -/
def resolve_imported_function_call (_function_name : String)
    (_current_module : ModuleInfo) : Option FunctionCall :=
  none

/-- Resolve a function call with explicit module qualification
(CallAnalyzer::resolve_module_function_call). -/
def resolve_module_function_call (project : Project)
    (module_name function_name : String) : Option FunctionCall :=
  match find_module_by_name project module_name with
  | some (module_def, file_path) =>
      (find_function_member module_def.members function_name).map (fun function =>
        { file := file_path
          function := generate_function_signature function
          module := module_name })
  | none => none

mutual
/-- Check if a type references a specific struct name
(CallAnalyzer::type_references_struct). -/
def type_references_struct : MoveType → String → Bool
  | .Apply (.Single path_entry), struct_name => path_entry.name = struct_name
  | .Apply (.Path name_path), struct_name =>
      (match name_path.root with
       | .Name name => name = struct_name
       | _ => false) ||
      name_path.entries.any (fun entry => entry.name = struct_name)
  | .Ref _ inner_type, struct_name => type_references_struct inner_type struct_name
  | .Multiple types, struct_name => any_type_references_struct types struct_name
  | _, _ => false

/-- Check if any of the types references the struct (the any iterator of
the Multiple arm). -/
def any_type_references_struct : List MoveType → String → Bool
  | [], _ => false
  | t :: ts, struct_name =>
      type_references_struct t struct_name ||
        any_type_references_struct ts struct_name
end

/-- Check if a function operates on a specific struct type, through a
parameter or the return type
(CallAnalyzer::function_operates_on_struct). -/
def function_operates_on_struct (function : Function) (struct_name : String) : Bool :=
  function.signature.parameters.any
    (fun p => type_references_struct p.2 struct_name) ||
  type_references_struct function.signature.return_type struct_name

/-- Find a function named method_name operating on the struct among module
members. -/
def find_struct_method_member (members : List ModuleMember)
    (method_name struct_name : String) : Option Function :=
  members.findSome? (fun member =>
    match member with
    | .Function function =>
        if function.name = method_name &&
            function_operates_on_struct function struct_name then
          some function
        else none
    | .Other => none)

/-- Resolve a struct method call: first the current module, then the
sources of every group skipping modules with the current module name
(CallAnalyzer::resolve_struct_method_call). -/
def resolve_struct_method_call (project : Project)
    (struct_name method_name : String) (current_module : ModuleInfo) :
    Option FunctionCall :=
  match
    match find_module_definition project current_module with
    | some module_def =>
        (find_struct_method_member module_def.members method_name
            struct_name).map (fun function =>
          ({ file := current_module.file_path
             function := generate_function_signature function
             module := current_module.name } : FunctionCall))
    | none => none
  with
  | some call => some call
  | none =>
      project.modules.findSome? (fun source_defs =>
        source_defs.sources.findSome? (fun fd =>
          fd.2.findSome? (fun definition =>
            match definition with
            | .Module module_def =>
                if module_def.name = current_module.name then none
                else
                  (find_struct_method_member module_def.members method_name
                      struct_name).map (fun function =>
                    { file := fd.1
                      function := generate_function_signature function
                      module := module_def.name })
            | .Other => none)))

/-- Resolve a function call on an external module with full address
qualification: a placeholder record tagged with the address
(CallAnalyzer::resolve_external_function_call). -/
def resolve_external_function_call (address module_name function_name : String) :
    Option FunctionCall :=
  some { file := "<external:" ++ address ++ ">"
         function := function_name ++ "(...)"
         module := module_name }

/-- Resolve the target of a function call from a name access chain
(CallAnalyzer::resolve_call_target). -/
def resolve_call_target (project : Project) (name_chain : NameAccessChain)
    (current_module : ModuleInfo) : Option FunctionCall :=
  match name_chain with
  | .Single path_entry =>
      let function_name := path_entry.name
      if is_builtin_function function_name then none
      else
        let imported :=
          match resolve_imported_function_call function_name current_module with
          | some call_info2 =>
              if should_include_in_call_graph function_name call_info2.module
              then some call_info2
              else none
          | none => none
        match resolve_local_function_call project function_name current_module with
        | some call_info =>
            if should_include_in_call_graph function_name call_info.module then
              some call_info
            else imported
        | none => imported
  | .Path name_path =>
      match name_path.root with
      | .AnonymousAddress _ => none
      | root =>
          let root_name :=
            match root with
            | .Name name => name
            | .GlobalAddress name => name
            | .AnonymousAddress _ => ""
          match name_path.entries with
          | [entry] =>
              let func_name := entry.name
              if is_std_module root_name then none
              else
                match resolve_module_function_call project root_name func_name with
                | some call_info =>
                    if should_include_in_call_graph func_name call_info.module then
                      some call_info
                    else
                      match resolve_struct_method_call project root_name func_name
                          current_module with
                      | some call_info2 =>
                          if should_include_in_call_graph func_name call_info2.module
                          then some call_info2
                          else none
                      | none => none
                | none =>
                    match resolve_struct_method_call project root_name func_name
                        current_module with
                    | some call_info2 =>
                        if should_include_in_call_graph func_name call_info2.module
                        then some call_info2
                        else none
                    | none => none
          | [entry1, entry2] =>
              let mod_name := entry1.name
              let func_name := entry2.name
              if root_name = "std" || root_name = "0x1" || root_name = "sui" ||
                  root_name = "0x2" then none
              else
                match resolve_external_function_call root_name mod_name func_name with
                | some call_info =>
                    if should_include_in_call_graph func_name call_info.module then
                      some call_info
                    else none
                | none => none
          | _ => none

/-- Generate a call signature from resolved call information: the function
signature of the record (CallAnalyzer::generate_call_signature). -/
def generate_call_signature (call_info : FunctionCall) : String :=
  call_info.function

/-- Generate a method call signature from resolved call information
(CallAnalyzer::generate_method_call_signature). -/
def generate_method_call_signature (call_info : FunctionCall) : String :=
  call_info.function

/-- Convert a name access chain to string for method resolution; unlike the
TypeResolver rendering this keeps every path segment
(CallAnalyzer::format_qualified_name_access). -/
def format_qualified_name_access (name_path : NamePath) : String :=
  let root_str :=
    match name_path.root with
    | .Name name => name
    | .GlobalAddress name => "@" ++ name
    | .AnonymousAddress addr => "0x" ++ hex_encode addr
  root_str ++ String.join (name_path.entries.map (fun path_entry =>
    "::" ++ path_entry.name ++
      (match path_entry.tyargs with
       | some type_args =>
           "<" ++
             String.intercalate ", "
               (type_args.map TypeResolver.type_to_string) ++ ">"
       | none => "")))

/-- Convert a name access chain to string for method resolution
(CallAnalyzer::name_access_chain_to_string, the method-resolution copy). -/
def name_access_chain_to_string : NameAccessChain → String
  | .Single path_entry => path_entry.name
  | .Path name_path => format_qualified_name_access name_path

/-- Infer the type of an expression for method resolution: only a struct
construction is syntactically determinable; variables and calls decline
(CallAnalyzer::infer_expression_type). -/
def infer_expression_type (expression : Exp) (_module_info : ModuleInfo) :
    Option String :=
  match expression with
  | .Name _ => none
  | .Pack name_access_chain _ => some (name_access_chain_to_string name_access_chain)
  | .Call _ _ => none
  | _ => none

/-- Resolve a method call based on the receiver type: never creates
placeholder calls and always declines
(CallAnalyzer::resolve_method_by_type). -/
def resolve_method_by_type (_receiver_type : String) (_method_name : String)
    (_type_args : Option (List MoveType)) (_module_info : ModuleInfo) :
    Option FunctionCall :=
  none

/-- Resolve a dot-notation method call: infer the receiver type, then
resolve by type (CallAnalyzer::resolve_method_call). -/
def resolve_method_call (receiver : Exp) (method_name : String)
    (type_args : Option (List MoveType)) (module_info : ModuleInfo) :
    Option FunctionCall :=
  match infer_expression_type receiver module_info with
  | some receiver_type =>
      resolve_method_by_type receiver_type method_name type_args module_info
  | none => none

/-- The mutable accumulator threaded through the traversal: the ordered call
list and the seen-set of dedup keys (the calls vector and visited_calls
hash set of CallAnalyzer::analyze_calls). -/
structure CallState where
  calls : List FunctionCall
  visited : List String
deriving DecidableEq, Repr

/-- Record a resolved call unless its key was already seen (the shared
insert-and-push step of the Call and DotCall arms). -/
def record_call (st : CallState) (call_info : FunctionCall) (call_key : String) :
    CallState :=
  if call_key ∈ st.visited then st
  else { calls := st.calls ++ [call_info], visited := st.visited ++ [call_key] }

mutual
/-- Extract function calls from a Move expression, the core recursive
traversal (CallAnalyzer::extract_calls_from_expression). -/
def extract_calls_from_expression (project : Project) (expression : Exp)
    (module_info : ModuleInfo) (st : CallState) : CallState :=
  match expression with
  | .Call name_chain args =>
      let st :=
        match resolve_call_target project name_chain module_info with
        | some call_info =>
            record_call st call_info
              (call_info.module ++ "::" ++ generate_call_signature call_info)
        | none => st
      extract_calls_from_exp_list project args module_info st
  | .Dot receiver _ =>
      extract_calls_from_expression project receiver module_info st
  | .DotCall receiver method_name type_args args =>
      let st := extract_calls_from_expression project receiver module_info st
      let st :=
        if is_member_method_pattern method_name then st
        else
          match resolve_method_call receiver method_name type_args module_info with
          | some call_info =>
              if should_include_in_call_graph method_name call_info.module then
                record_call st call_info
                  (call_info.module ++ "::" ++
                    generate_method_call_signature call_info)
              else st
          | none => st
      extract_calls_from_exp_list project args module_info st
  | .BinopExp left _ right =>
      extract_calls_from_expression project right module_info
        (extract_calls_from_expression project left module_info st)
  | .UnaryExp _ exp =>
      extract_calls_from_expression project exp module_info st
  | .IfElse condition then_exp else_exp =>
      let st := extract_calls_from_expression project condition module_info st
      let st := extract_calls_from_expression project then_exp module_info st
      match else_exp with
      | some else_branch =>
          extract_calls_from_expression project else_branch module_info st
      | none => st
  | .While condition body =>
      extract_calls_from_expression project body module_info
        (extract_calls_from_expression project condition module_info st)
  | .Loop body =>
      extract_calls_from_expression project body module_info st
  | .Block sequence =>
      extract_calls_from_sequence project sequence module_info st
  | .Assign lhs rhs =>
      extract_calls_from_expression project rhs module_info
        (extract_calls_from_expression project lhs module_info st)
  | .Vector elements =>
      extract_calls_from_exp_list project elements module_info st
  | .Pack _ fields =>
      extract_calls_from_fields project fields module_info st
  | .Borrow _ exp =>
      extract_calls_from_expression project exp module_info st
  | .Dereference exp =>
      extract_calls_from_expression project exp module_info st
  | .Index base indices =>
      extract_calls_from_exp_list project indices module_info
        (extract_calls_from_expression project base module_info st)
  | .Cast exp _ =>
      extract_calls_from_expression project exp module_info st
  | .Annotate exp _ =>
      extract_calls_from_expression project exp module_info st
  | .ExpList expressions =>
      extract_calls_from_exp_list project expressions module_info st
  | .Abort exp =>
      (match exp with
       | some abort_exp =>
           extract_calls_from_expression project abort_exp module_info st
       | none => st)
  | .MoveExp exp =>
      extract_calls_from_expression project exp module_info st
  | .CopyExp exp =>
      extract_calls_from_expression project exp module_info st
  | .Quant _ _ _ => st
  | .Spec => st
  | .Match match_exp _ =>
      extract_calls_from_expression project match_exp module_info st
  | .Labeled _ exp =>
      extract_calls_from_expression project exp module_info st
  | .Lambda _ body =>
      extract_calls_from_expression project body module_info st
  | .Parens exp =>
      extract_calls_from_expression project exp module_info st
  | .Return exp_opt =>
      (match exp_opt with
       | some exp => extract_calls_from_expression project exp module_info st
       | none => st)
  | .Break exp_opt =>
      (match exp_opt with
       | some exp => extract_calls_from_expression project exp module_info st
       | none => st)
  | .Continue => st
  | .UnresolvedError => st
  | .DotUnresolved exp =>
      extract_calls_from_expression project exp module_info st
  | .Value _ => st
  | .Name _ => st
  | .Unit => st

/-- Fold the expression traversal over a list of expressions (the argument
and element loops of the source). -/
def extract_calls_from_exp_list (project : Project) (expressions : List Exp)
    (module_info : ModuleInfo) (st : CallState) : CallState :=
  match expressions with
  | [] => st
  | exp :: rest =>
      extract_calls_from_exp_list project rest module_info
        (extract_calls_from_expression project exp module_info st)

/-- Fold the expression traversal over struct-pack field initializers. -/
def extract_calls_from_fields (project : Project)
    (fields : List (String × Exp)) (module_info : ModuleInfo)
    (st : CallState) : CallState :=
  match fields with
  | [] => st
  | field :: rest =>
      extract_calls_from_fields project rest module_info
        (extract_calls_from_expression project field.2 module_info st)

/-- Extract function calls from a sequence of statements
(CallAnalyzer::extract_calls_from_sequence). -/
def extract_calls_from_sequence (project : Project) (sequence : Sequence)
    (module_info : ModuleInfo) (st : CallState) : CallState :=
  match sequence with
  | .mk items final_exp =>
      let st := extract_calls_from_items project items module_info st
      match final_exp with
      | some exp => extract_calls_from_expression project exp module_info st
      | none => st

/-- Fold the expression traversal over sequence items; declarations contain
no calls. -/
def extract_calls_from_items (project : Project) (items : List SequenceItem)
    (module_info : ModuleInfo) (st : CallState) : CallState :=
  match items with
  | [] => st
  | .Seq exp :: rest =>
      extract_calls_from_items project rest module_info
        (extract_calls_from_expression project exp module_info st)
  | .Declare :: rest =>
      extract_calls_from_items project rest module_info st
  | .Bind exp :: rest =>
      extract_calls_from_items project rest module_info
        (extract_calls_from_expression project exp module_info st)
end

/-- Analyze all function calls within the given function
(CallAnalyzer::analyze_calls). -/
def analyze_calls (project : Project) (function : Function)
    (module_info : ModuleInfo) : List FunctionCall :=
  match function.body with
  | .Defined sequence =>
      (extract_calls_from_sequence project sequence module_info
        { calls := [], visited := [] }).calls
  | .Native => []

end CallAnalyzer

namespace FunctionAnalyzer

/-- Get the 1-indexed line number from a byte offset
(FunctionAnalyzer::get_line_number_from_offset, the coordinator duplicate
of the FunctionParser method; the source result is always Ok). -/
def get_line_number_from_offset (content : String) (offset : Nat) : Nat :=
  FunctionParser.line_walk offset content.data 1 0

/-- Create location information from a function definition: both line
numbers come directly from the byte offsets, with no backward extension
over documentation lines (FunctionAnalyzer::create_location_info). -/
def create_location_info (fs : FileSystem) (function_def : FunctionDef) :
    Except AnalyzerError LocationInfo :=
  match fs_read fs function_def.module_info.file_path with
  | none => .error (.IoError function_def.module_info.file_path)
  | some file_content =>
      .ok { file := function_def.module_info.file_path
            start_line :=
              get_line_number_from_offset file_content function_def.location.start
            end_line :=
              get_line_number_from_offset file_content function_def.location.end_ }

/-- Analyze a single function definition: signature, source code with doc
comments, location, parameters and calls
(FunctionAnalyzer::analyze_single_function). -/
def analyze_single_function (fs : FileSystem) (project : Project)
    (function_def : FunctionDef) : Except AnalyzerError FunctionAnalysis :=
  let function_signature := FunctionParser.extract_function_signature function_def
  match FunctionParser.extract_source_code fs function_def with
  | .error e =>
      .error (.AnalysisError ("Failed to extract source code: " ++ e.display))
  | .ok source_code =>
      match create_location_info fs function_def with
      | .error e => .error e
      | .ok location_info =>
          .ok { contract := function_def.module_info.name
                function := function_signature
                source := source_code
                location := location_info
                parameters := FunctionParser.extract_parameters function_def
                calls := CallAnalyzer.analyze_calls project function_def.function
                  function_def.module_info }

/-- Create a partial analysis result when full analysis fails: minimal
signature, default location, an error comment as source, empty parameter
and call lists; the source always returns Ok
(FunctionAnalyzer::create_partial_analysis). -/
def create_partial_analysis (function_def : FunctionDef)
    (error : AnalyzerError) : Except AnalyzerError FunctionAnalysis :=
  let contract := function_def.module_info.name
  let function_name := function_def.function.name
  let function_signature := function_name ++ "(...)"
  let location_info : LocationInfo :=
    { file := function_def.module_info.file_path, start_line := 1, end_line := 1 }
  let source_code :=
    "// Error analyzing function: " ++ error.display ++
      "\n// Function: " ++ function_name ++ "\n// Module: " ++ contract
  .ok { contract := contract
        function := function_signature
        source := source_code
        location := location_info
        parameters := []
        calls := [] }

/-- The per-definition recovery loop of FunctionAnalyzer::analyze_function:
a successful analysis is pushed; a failure is downgraded to a partial
analysis when partial creation succeeds, and the error message is
collected. -/
def analysis_loop (fs : FileSystem) (project : Project) :
    List FunctionDef → List FunctionAnalysis × List String →
      List FunctionAnalysis × List String
  | [], acc => acc
  | function_def :: rest, (results, errors) =>
      match analyze_single_function fs project function_def with
      | .ok analysis => analysis_loop fs project rest (results ++ [analysis], errors)
      | .error e =>
          let errors := errors ++
            ["Error analyzing function in " ++
              function_def.module_info.file_path ++ ": " ++ e.display]
          match create_partial_analysis function_def e with
          | .ok partial_analysis =>
              analysis_loop fs project rest (results ++ [partial_analysis], errors)
          | .error _ => analysis_loop fs project rest (results, errors)

/-- Analyze a function by name: validate the name, find all matching
definitions, analyze each with degraded-record recovery
(FunctionAnalyzer::analyze_function). -/
def analyze_function (fs : FileSystem) (project : Project)
    (function_name : String) : Except AnalyzerError (List FunctionAnalysis) :=
  if str_trim function_name = "" then
    .error (.AnalysisError "Function name cannot be empty")
  else
    let function_defs := FunctionParser.find_functions project function_name
    if function_defs.isEmpty then
      .error (.FunctionNotFound function_name)
    else
      let looped := analysis_loop fs project function_defs ([], [])
      if looped.1.isEmpty then
        .error (.AnalysisError
          ("Failed to analyze any instances of function '" ++ function_name ++
            "': " ++ String.intercalate "; " looped.2))
      else
        .ok looped.1

end FunctionAnalyzer

/-!
Claim C3: the rendering of Applied type nodes.
The render_c3_amended functions below restate, in Lean, the amended
description of the renderer; the refinement theorem proves the source
renderer equal to it.  The counterexample shows the original claim false:
a two-segment chain renders as its leading segment only.
-/

/-- Amended rendering of a leading name-access segment: identifier, or
@-prefixed global name, or 0x-prefixed lowercase hex of an anonymous
address. -/
def leading_render_c3 : LeadingNameAccess → String
  | .Name name => name
  | .GlobalAddress name => "@" ++ name
  | .AnonymousAddress addr => "0x" ++ hex_encode addr

mutual
/-- Amended specification rendering of a type (spec section 4.1 with the
Applied case amended). -/
def render_c3_amended : MoveType → String
  | .Unit => "()"
  | .Apply chain => applied_render_c3_amended chain
  | .Ref is_mut inner =>
      "&" ++ (if is_mut then "mut " else "") ++ render_c3_amended inner
  | .Fun params return_type =>
      "|" ++ String.intercalate ", " (render_c3_amended_list params) ++ "| -> " ++
        render_c3_amended return_type
  | .Multiple types =>
      "(" ++ String.intercalate ", " (render_c3_amended_list types) ++ ")"
  | .UnresolvedError => "UnresolvedError"

/-- Amended specification rendering of a list of types. -/
def render_c3_amended_list : List MoveType → List String
  | [] => []
  | t :: ts => render_c3_amended t :: render_c3_amended_list ts

/-- Amended specification rendering of an Applied chain: a single-segment
name renders as itself, followed by angle-bracketed recursively rendered
type arguments unless the name is a built-in scalar or vector name, whose
arguments are dropped; a multi-segment chain renders only its leading
segment, dropping every later segment and its type arguments. -/
def applied_render_c3_amended : NameAccessChain → String
  | .Single (.mk name none) => name
  | .Single (.mk name (some type_args)) =>
      if TypeResolver.is_basic_move_type name then name
      else
        name ++ "<" ++
          String.intercalate ", " (render_c3_amended_list type_args) ++ ">"
  | .Path name_path => leading_render_c3 name_path.root
end

mutual
/-- The source type renderer agrees with the amended specification
rendering. -/
theorem type_to_string_eq_amended :
    ∀ t : MoveType, TypeResolver.type_to_string t = render_c3_amended t
  | .Unit => rfl
  | .Apply chain => by
      rw [TypeResolver.type_to_string, render_c3_amended]
      exact chain_to_string_eq_amended chain
  | .Ref is_mut inner => by
      rw [TypeResolver.type_to_string, render_c3_amended,
        type_to_string_eq_amended inner]
  | .Fun params return_type => by
      rw [TypeResolver.type_to_string, render_c3_amended,
        type_list_eq_amended params, type_to_string_eq_amended return_type]
  | .Multiple types => by
      rw [TypeResolver.type_to_string, render_c3_amended, type_list_eq_amended types]
  | .UnresolvedError => rfl

/-- The source list rendering agrees with the amended specification
rendering. -/
theorem type_list_eq_amended :
    ∀ ts : List MoveType,
      TypeResolver.type_list_to_strings ts = render_c3_amended_list ts
  | [] => rfl
  | t :: ts => by
      rw [TypeResolver.type_list_to_strings, render_c3_amended_list,
        type_to_string_eq_amended t, type_list_eq_amended ts]

/-- The source chain rendering agrees with the amended specification
rendering. -/
theorem chain_to_string_eq_amended :
    ∀ c : NameAccessChain,
      TypeResolver.name_access_chain_to_string c = applied_render_c3_amended c
  | .Single (.mk name none) => by
      rw [TypeResolver.name_access_chain_to_string,
        TypeResolver.format_single_name_entry, applied_render_c3_amended]
      by_cases h : TypeResolver.is_basic_move_type name <;> simp [h]
  | .Single (.mk name (some type_args)) => by
      rw [TypeResolver.name_access_chain_to_string,
        TypeResolver.format_single_name_entry, applied_render_c3_amended]
      by_cases h : TypeResolver.is_basic_move_type name
      · simp [h]
      · simp [h, type_list_eq_amended type_args]
  | .Path name_path => by
      rw [TypeResolver.name_access_chain_to_string, applied_render_c3_amended]
      cases name_path with
      | mk root entries =>
          cases root <;> rfl
end

/-- C3 counterexample: the qualified chain m::n does not render with a
path separator; the renderer emits only the leading segment m and drops
the segment n, so the rendering is not lossless. -/
theorem C3_counterexample :
    TypeResolver.type_to_string
        (.Apply (.Path (.mk (.Name "m") [.mk "n" none]))) = "m" ∧
      "m" ≠ "m::n" := by
  constructor
  · rfl
  · decide

/-- C3 (amended): for every Applied type node the renderer emits: a bare
single-segment identifier as itself; a single-segment identifier with type
arguments followed by the comma-separated recursively rendered arguments in
angle brackets, except built-in scalar and vector names whose arguments are
dropped; and for a qualified chain only the leading segment (identifier,
@-prefixed global name, or 0x-prefixed hex anonymous address), dropping all
later path segments and their type arguments. -/
theorem C3_applied_rendering :
    ∀ chain : NameAccessChain,
      TypeResolver.type_to_string (.Apply chain) = applied_render_c3_amended chain := by
  intro chain
  rw [TypeResolver.type_to_string]
  exact chain_to_string_eq_amended chain

/-!
Claim C7: the rendered signature string.  The signature_render_spec
function restates the token order given by the specification; the theorem
proves the source signature builder equal to it and instantiates Scenario D.
-/

/-- The visibility token of the specification. -/
def visibility_token : Visibility → String
  | .Public => "public "
  | .Friend => "public(friend) "
  | .Package => "public(package) "
  | .Internal => ""

/-- The optional generic parameter clause of the specification, abilities
joined by a plus sign. -/
def type_param_clause (tps : List (String × List Ability)) : String :=
  if tps.isEmpty then ""
  else
    "<" ++
      String.intercalate ", "
        (tps.map (fun tp =>
          tp.1 ++
            (if tp.2.isEmpty then ""
             else ": " ++
               String.intercalate " + " (tp.2.map FunctionParser.ability_to_string)))) ++
      ">"

/-- The signature string as described by the specification: visibility
token, optional entry marker, optional native marker, the fun keyword and
name, the generic clause, the parameter list, the return type. -/
def signature_render_spec (f : Function) : String :=
  visibility_token f.visibility ++
    (if f.entry then "entry " else "") ++
    (match f.body with | .Native => "native " | .Defined _ => "") ++
    "fun " ++ f.name ++
    type_param_clause f.signature.type_parameters ++
    "(" ++
    String.intercalate ", "
      (f.signature.parameters.map (fun p =>
        p.1 ++ ": " ++ TypeResolver.type_to_string p.2)) ++
    ")" ++ ": " ++ TypeResolver.type_to_string f.signature.return_type

/-- The unsigned 64-bit integer type node. -/
def ty_u64 : MoveType := .Apply (.Single (.mk "u64" none))

/-- The boolean type node. -/
def ty_bool : MoveType := .Apply (.Single (.mk "bool" none))

/-- Scenario D fixture: a public(friend) function with one generic
parameter constrained by two abilities. -/
def c7_scenario_d : FunctionDef :=
  { function :=
      { name := "name"
        visibility := .Friend
        entry := false
        signature :=
          { type_parameters := [("T", [.Copy, .Drop])]
            parameters := [("x", ty_u64)]
            return_type := ty_u64 }
        body := .Defined (.mk [] none)
        loc := ⟨0, 0⟩ }
    module_info := { address := zero_address, name := "m", file_path := "f" }
    location := ⟨0, 0⟩ }

/-- C7: the rendered signature consists of exactly the visibility token,
then the entry marker, then the native marker, then fun and the name, then
the generic clause with abilities joined by plus signs, then the named
parameter list, then the return type, in this fixed order; in particular
Scenario D renders as public(friend) fun name with the two-ability generic
clause. -/
theorem C7_signature_order :
    (∀ fd : FunctionDef,
      FunctionParser.extract_function_signature fd =
        signature_render_spec fd.function) ∧
    FunctionParser.extract_function_signature c7_scenario_d =
      "public(friend) fun name<T: copy + drop>(x: u64): u64" := by
  constructor
  · intro fd
    obtain ⟨⟨fname, vis, ent, sig, body, loc⟩, mi, l⟩ := fd
    rw [FunctionParser.extract_function_signature, signature_render_spec]
    cases vis <;> cases ent <;> cases body <;>
      by_cases h : sig.type_parameters.isEmpty <;>
        simp [visibility_token, type_param_clause, h, String.append_assoc]
  · rfl

/-!
Claim C8: Scenario A.  The fixture is the single-module project containing
fun test(x: u64, y: bool): u64 with body x; the span covers the second line
of the file.
-/

/-- Scenario A source file content. -/
def c8_content : String :=
  "module m \x7b\nfun test(x: u64, y: bool): u64 \x7b x \x7d\n\x7d"

/-- Scenario A function: fun test(x: u64, y: bool): u64 with body x. -/
def c8_fn : Function :=
  { name := "test"
    visibility := .Internal
    entry := false
    signature :=
      { type_parameters := []
        parameters := [("x", ty_u64), ("y", ty_bool)]
        return_type := ty_u64 }
    body := .Defined (.mk [] (some (.Name (.Single (.mk "x" none)))))
    loc := ⟨11, 47⟩ }

/-- Scenario A module info. -/
def c8_mi : ModuleInfo :=
  { address := zero_address, name := "m", file_path := "sources/m.move" }

/-- Scenario A function definition record. -/
def c8_fd : FunctionDef :=
  { function := c8_fn, module_info := c8_mi, location := c8_fn.loc }

/-- Scenario A project. -/
def c8_proj : Project :=
  { modules :=
      [{ sources :=
           [("sources/m.move",
             [.Module { address := none, name := "m",
                        members := [.Function c8_fn] }])]
         tests := [] }] }

/-- Scenario A file system. -/
def c8_fs : FileSystem := [("sources/m.move", c8_content)]

/-- C8 counterexample: analyzing Scenario A yields the signature string
with the fun keyword, not the bare string the claim states. -/
theorem C8_counterexample :
    (FunctionAnalyzer.analyze_single_function c8_fs c8_proj c8_fd).toOption.map
        FunctionAnalysis.function = some "fun test(x: u64, y: bool): u64" ∧
      "fun test(x: u64, y: bool): u64" ≠ "test(x: u64, y: bool): u64" := by
  constructor
  · rfl
  · decide

/-- C8 (amended): analyzing fun test(x: u64, y: bool): u64 with body x
yields the signature string fun test(x: u64, y: bool): u64, the ordered
parameter list x of type u64 then y of type bool, and an empty call list
(together with the verbatim source line and its location). -/
theorem C8_scenario_a :
    FunctionAnalyzer.analyze_single_function c8_fs c8_proj c8_fd =
      .ok { contract := "m"
            function := "fun test(x: u64, y: bool): u64"
            source := "fun test(x: u64, y: bool): u64 \x7b x \x7d"
            location := { file := "sources/m.move", start_line := 2, end_line := 2 }
            parameters := [{ name := "x", type_ := "u64" },
                           { name := "y", type_ := "bool" }]
            calls := [] } := by
  rfl

/-!
Claim C2: direct-call resolution.  The code also filters resolved local
calls through the member-method-pattern and standard-module filters, so a
local function whose name looks like an accessor is dropped even though it
is defined in the current module.
-/

/-- A local function whose name matches the accessor pattern. -/
def c2_get_x : Function :=
  { name := "get_x"
    visibility := .Internal
    entry := false
    signature := { type_parameters := [], parameters := [], return_type := .Unit }
    body := .Defined (.mk [] none)
    loc := ⟨0, 0⟩ }

/-- A caller whose body directly calls get_x(). -/
def c2_caller : Function :=
  { name := "caller"
    visibility := .Internal
    entry := false
    signature := { type_parameters := [], parameters := [], return_type := .Unit }
    body := .Defined (.mk [.Seq (.Call (.Single (.mk "get_x" none)) [])] none)
    loc := ⟨0, 0⟩ }

/-- Module info for the C2 fixture module. -/
def c2_mi : ModuleInfo :=
  { address := zero_address, name := "m", file_path := "sources/m.move" }

/-- The C2 fixture project: one module containing caller and get_x. -/
def c2_proj : Project :=
  { modules :=
      [{ sources :=
           [("sources/m.move",
             [.Module { address := none, name := "m",
                        members := [.Function c2_caller, .Function c2_get_x] }])]
         tests := [] }] }

/-- C2 counterexample: get_x is not a builtin and is defined in the current
module, yet no call edge is recorded for the direct call get_x(), because
the name matches the member-method accessor pattern. -/
theorem C2_counterexample :
    CallAnalyzer.is_builtin_function "get_x" = false ∧
      (CallAnalyzer.resolve_local_function_call c2_proj "get_x" c2_mi).isSome = true ∧
      CallAnalyzer.analyze_calls c2_proj c2_caller c2_mi = [] := by
  refine ⟨by decide, by decide, by decide⟩

/-- C2 (amended): for a direct call the call is skipped when the name is in
the builtin-intrinsic set; otherwise import-based resolution always
declines, and an edge is recorded exactly when a function of that name is
defined in the current module and additionally survives the call-graph
filter (its name is not an accessor-pattern name and the module name is not
a standard-library module name). -/
theorem C2_direct_call_resolution :
    (∀ (function_name : String) (mi : ModuleInfo),
      CallAnalyzer.resolve_imported_function_call function_name mi = none) ∧
    (∀ (project : Project) (path_entry : PathEntry) (mi : ModuleInfo),
      CallAnalyzer.resolve_call_target project (.Single path_entry) mi =
        if CallAnalyzer.is_builtin_function path_entry.name then none
        else
          match CallAnalyzer.resolve_local_function_call project
              path_entry.name mi with
          | some call_info =>
              if CallAnalyzer.should_include_in_call_graph path_entry.name
                  call_info.module then
                some call_info
              else none
          | none => none) := by
  constructor
  · intro function_name mi
    rfl
  · intro project path_entry mi
    obtain ⟨name, tyargs⟩ := path_entry
    rw [CallAnalyzer.resolve_call_target]
    by_cases hb : CallAnalyzer.is_builtin_function name
    · simp [PathEntry.name, hb]
    · simp only [PathEntry.name, hb, if_false, Bool.false_eq_true]
      cases CallAnalyzer.resolve_local_function_call project name mi with
      | none => rfl
      | some call_info =>
          by_cases hi : CallAnalyzer.should_include_in_call_graph name
            call_info.module <;> simp [hi, CallAnalyzer.resolve_imported_function_call]

/-!
Claim C4: method-call resolution.  Even when the receiver type is
syntactically determinable (a freshly constructed Pack expression),
resolve_method_by_type unconditionally declines, so no method call ever
produces an edge; the receiver and the arguments are still always
traversed.
-/

/-- The struct type S used by the C4 fixture. -/
def ty_S : MoveType := .Apply (.Single (.mk "S" none))

/-- A module function foo(s: S) operating on struct S. -/
def c4_foo : Function :=
  { name := "foo"
    visibility := .Internal
    entry := false
    signature := { type_parameters := [], parameters := [("s", ty_S)],
                   return_type := .Unit }
    body := .Defined (.mk [] none)
    loc := ⟨0, 0⟩ }

/-- A caller whose body is the method call S \x7b\x7d.foo(). -/
def c4_caller : Function :=
  { name := "caller"
    visibility := .Internal
    entry := false
    signature := { type_parameters := [], parameters := [], return_type := .Unit }
    body := .Defined (.mk
      [.Seq (.DotCall (.Pack (.Single (.mk "S" none)) []) "foo" none [])] none)
    loc := ⟨0, 0⟩ }

/-- Module info for the C4 fixture module. -/
def c4_mi : ModuleInfo :=
  { address := zero_address, name := "m", file_path := "sources/m4.move" }

/-- The C4 fixture project: one module containing caller and foo. -/
def c4_proj : Project :=
  { modules :=
      [{ sources :=
           [("sources/m4.move",
             [.Module { address := none, name := "m",
                        members := [.Function c4_caller, .Function c4_foo] }])]
         tests := [] }] }

/-- C4 counterexample: the receiver is a freshly constructed value of
struct type S, a matching function foo operating on S exists and passes the
call-graph filter, yet the method call emits no edge. -/
theorem C4_counterexample :
    CallAnalyzer.infer_expression_type (.Pack (.Single (.mk "S" none)) [])
        c4_mi = some "S" ∧
      (CallAnalyzer.resolve_struct_method_call c4_proj "S" "foo" c4_mi).isSome =
        true ∧
      CallAnalyzer.should_include_in_call_graph "foo" "m" = true ∧
      CallAnalyzer.analyze_calls c4_proj c4_caller c4_mi = [] := by
  refine ⟨by decide, by decide, by decide, by decide⟩

/-- Method-call resolution always declines: type inference only succeeds
for struct constructions, and resolution by receiver type unconditionally
returns none. -/
theorem resolve_method_call_eq_none (receiver : Exp) (method_name : String)
    (type_args : Option (List MoveType)) (module_info : ModuleInfo) :
    CallAnalyzer.resolve_method_call receiver method_name type_args
      module_info = none := by
  rw [CallAnalyzer.resolve_method_call]
  cases CallAnalyzer.infer_expression_type receiver module_info <;> rfl

/-- C4 (amended): for every method-call expression the receiver and the
arguments are always recursed into, but resolution always declines — even
for a receiver whose type is syntactically determinable — so a method call
never yields an edge and never produces a module name fabricated from the
receiver. -/
theorem C4_method_calls_never_resolve :
    (∀ (receiver : Exp) (method_name : String)
        (type_args : Option (List MoveType)) (module_info : ModuleInfo),
      CallAnalyzer.resolve_method_call receiver method_name type_args
        module_info = none) ∧
    (∀ (project : Project) (receiver : Exp) (method_name : String)
        (type_args : Option (List MoveType)) (args : List Exp)
        (module_info : ModuleInfo) (st : CallAnalyzer.CallState),
      CallAnalyzer.extract_calls_from_expression project
          (.DotCall receiver method_name type_args args) module_info st =
        CallAnalyzer.extract_calls_from_exp_list project args module_info
          (CallAnalyzer.extract_calls_from_expression project receiver
            module_info st)) := by
  constructor
  · exact resolve_method_call_eq_none
  · intro project receiver method_name type_args args module_info st
    rw [CallAnalyzer.extract_calls_from_expression]
    by_cases h : CallAnalyzer.is_member_method_pattern method_name <;>
      simp [h, resolve_method_call_eq_none]

/-!
Claim C5: deduplication.  The traversal threads a seen-set of keys; the
invariant below states that the accumulated calls are pairwise distinct on
the dedup key and that every accumulated key is in the seen-set, and is
preserved by every step of the traversal.
-/

/-- The deduplication key of a call record: module name and rendered
signature (the composite key of CallAnalyzer::analyze_calls). -/
def call_key (c : FunctionCall) : String :=
  c.module ++ "::" ++ c.function

/-- The traversal invariant: accumulated calls are pairwise distinct on the
dedup key, and every accumulated key has been recorded in the seen-set. -/
def dedup_inv (st : CallAnalyzer.CallState) : Prop :=
  st.calls.Pairwise (fun a b => call_key a ≠ call_key b) ∧
    ∀ c ∈ st.calls, call_key c ∈ st.visited

/-- Recording one resolved call preserves the deduplication invariant. -/
theorem record_call_dedup (st : CallAnalyzer.CallState) (info : FunctionCall)
    (h : dedup_inv st) :
    dedup_inv (CallAnalyzer.record_call st info (call_key info)) := by
  rw [CallAnalyzer.record_call]
  split
  · exact h
  · rename_i hnot
    constructor
    · rw [List.pairwise_append]
      refine ⟨h.1, List.pairwise_singleton _ _, ?_⟩
      intro a ha b hb
      rcases List.mem_singleton.mp hb with rfl
      intro hkey
      exact hnot (hkey ▸ h.2 a ha)
    · intro c hc
      rcases List.mem_append.mp hc with hc | hc
      · exact List.mem_append_left _ (h.2 c hc)
      · rcases List.mem_singleton.mp hc with rfl
        exact List.mem_append_right _ (List.mem_singleton.mpr rfl)

mutual
/-- The expression traversal preserves the deduplication invariant. -/
theorem extract_exp_dedup (project : Project) (module_info : ModuleInfo) :
    ∀ (e : Exp) (st : CallAnalyzer.CallState), dedup_inv st →
      dedup_inv (CallAnalyzer.extract_calls_from_expression project e
        module_info st)
  | .Call name_chain args, st, h => by
      simp only [CallAnalyzer.extract_calls_from_expression]
      apply extract_list_dedup
      split
      · rename_i call_info _
        exact record_call_dedup st call_info h
      · exact h
  | .Dot receiver _, st, h => by
      simp only [CallAnalyzer.extract_calls_from_expression]
      exact extract_exp_dedup project module_info receiver st h
  | .DotCall receiver method_name type_args args, st, h => by
      simp only [CallAnalyzer.extract_calls_from_expression,
        resolve_method_call_eq_none, ite_self]
      exact extract_list_dedup project module_info args _
        (extract_exp_dedup project module_info receiver st h)
  | .BinopExp left _ right, st, h => by
      simp only [CallAnalyzer.extract_calls_from_expression]
      exact extract_exp_dedup project module_info right _
        (extract_exp_dedup project module_info left st h)
  | .UnaryExp _ exp, st, h => by
      simp only [CallAnalyzer.extract_calls_from_expression]
      exact extract_exp_dedup project module_info exp st h
  | .IfElse condition then_exp (some else_branch), st, h => by
      simp only [CallAnalyzer.extract_calls_from_expression]
      exact extract_exp_dedup project module_info else_branch _
        (extract_exp_dedup project module_info then_exp _
          (extract_exp_dedup project module_info condition st h))
  | .IfElse condition then_exp none, st, h => by
      simp only [CallAnalyzer.extract_calls_from_expression]
      exact extract_exp_dedup project module_info then_exp _
        (extract_exp_dedup project module_info condition st h)
  | .While condition body, st, h => by
      simp only [CallAnalyzer.extract_calls_from_expression]
      exact extract_exp_dedup project module_info body _
        (extract_exp_dedup project module_info condition st h)
  | .Loop body, st, h => by
      simp only [CallAnalyzer.extract_calls_from_expression]
      exact extract_exp_dedup project module_info body st h
  | .Block sequence, st, h => by
      simp only [CallAnalyzer.extract_calls_from_expression]
      exact extract_seq_dedup project module_info sequence st h
  | .Assign lhs rhs, st, h => by
      simp only [CallAnalyzer.extract_calls_from_expression]
      exact extract_exp_dedup project module_info rhs _
        (extract_exp_dedup project module_info lhs st h)
  | .Vector elements, st, h => by
      simp only [CallAnalyzer.extract_calls_from_expression]
      exact extract_list_dedup project module_info elements st h
  | .Pack _ fields, st, h => by
      simp only [CallAnalyzer.extract_calls_from_expression]
      exact extract_fields_dedup project module_info fields st h
  | .Borrow _ exp, st, h => by
      simp only [CallAnalyzer.extract_calls_from_expression]
      exact extract_exp_dedup project module_info exp st h
  | .Dereference exp, st, h => by
      simp only [CallAnalyzer.extract_calls_from_expression]
      exact extract_exp_dedup project module_info exp st h
  | .Index base indices, st, h => by
      simp only [CallAnalyzer.extract_calls_from_expression]
      exact extract_list_dedup project module_info indices _
        (extract_exp_dedup project module_info base st h)
  | .Cast exp _, st, h => by
      simp only [CallAnalyzer.extract_calls_from_expression]
      exact extract_exp_dedup project module_info exp st h
  | .Annotate exp _, st, h => by
      simp only [CallAnalyzer.extract_calls_from_expression]
      exact extract_exp_dedup project module_info exp st h
  | .ExpList expressions, st, h => by
      simp only [CallAnalyzer.extract_calls_from_expression]
      exact extract_list_dedup project module_info expressions st h
  | .Abort (some abort_exp), st, h => by
      simp only [CallAnalyzer.extract_calls_from_expression]
      exact extract_exp_dedup project module_info abort_exp st h
  | .Abort none, st, h => h
  | .MoveExp exp, st, h => by
      simp only [CallAnalyzer.extract_calls_from_expression]
      exact extract_exp_dedup project module_info exp st h
  | .CopyExp exp, st, h => by
      simp only [CallAnalyzer.extract_calls_from_expression]
      exact extract_exp_dedup project module_info exp st h
  | .Quant _ _ _, st, h => h
  | .Spec, st, h => h
  | .Match match_exp _, st, h => by
      simp only [CallAnalyzer.extract_calls_from_expression]
      exact extract_exp_dedup project module_info match_exp st h
  | .Labeled _ exp, st, h => by
      simp only [CallAnalyzer.extract_calls_from_expression]
      exact extract_exp_dedup project module_info exp st h
  | .Lambda _ body, st, h => by
      simp only [CallAnalyzer.extract_calls_from_expression]
      exact extract_exp_dedup project module_info body st h
  | .Parens exp, st, h => by
      simp only [CallAnalyzer.extract_calls_from_expression]
      exact extract_exp_dedup project module_info exp st h
  | .Return (some exp), st, h => by
      simp only [CallAnalyzer.extract_calls_from_expression]
      exact extract_exp_dedup project module_info exp st h
  | .Return none, st, h => h
  | .Break (some exp), st, h => by
      simp only [CallAnalyzer.extract_calls_from_expression]
      exact extract_exp_dedup project module_info exp st h
  | .Break none, st, h => h
  | .Continue, st, h => h
  | .UnresolvedError, st, h => h
  | .DotUnresolved exp, st, h => by
      simp only [CallAnalyzer.extract_calls_from_expression]
      exact extract_exp_dedup project module_info exp st h
  | .Value _, st, h => h
  | .Name _, st, h => h
  | .Unit, st, h => h

/-- The expression-list traversal preserves the deduplication invariant. -/
theorem extract_list_dedup (project : Project) (module_info : ModuleInfo) :
    ∀ (es : List Exp) (st : CallAnalyzer.CallState), dedup_inv st →
      dedup_inv (CallAnalyzer.extract_calls_from_exp_list project es
        module_info st)
  | [], _, h => h
  | e :: rest, st, h => by
      simp only [CallAnalyzer.extract_calls_from_exp_list]
      exact extract_list_dedup project module_info rest _
        (extract_exp_dedup project module_info e st h)

/-- The field-initializer traversal preserves the deduplication
invariant. -/
theorem extract_fields_dedup (project : Project) (module_info : ModuleInfo) :
    ∀ (fields : List (String × Exp)) (st : CallAnalyzer.CallState),
      dedup_inv st →
      dedup_inv (CallAnalyzer.extract_calls_from_fields project fields
        module_info st)
  | [], _, h => h
  | field :: rest, st, h => by
      simp only [CallAnalyzer.extract_calls_from_fields]
      exact extract_fields_dedup project module_info rest _
        (extract_exp_dedup project module_info field.2 st h)

/-- The sequence traversal preserves the deduplication invariant. -/
theorem extract_seq_dedup (project : Project) (module_info : ModuleInfo) :
    ∀ (sequence : Sequence) (st : CallAnalyzer.CallState), dedup_inv st →
      dedup_inv (CallAnalyzer.extract_calls_from_sequence project sequence
        module_info st)
  | .mk items (some exp), st, h => by
      simp only [CallAnalyzer.extract_calls_from_sequence]
      exact extract_exp_dedup project module_info exp _
        (extract_items_dedup project module_info items st h)
  | .mk items none, st, h => by
      simp only [CallAnalyzer.extract_calls_from_sequence]
      exact extract_items_dedup project module_info items st h

/-- The sequence-item traversal preserves the deduplication invariant. -/
theorem extract_items_dedup (project : Project) (module_info : ModuleInfo) :
    ∀ (items : List SequenceItem) (st : CallAnalyzer.CallState),
      dedup_inv st →
      dedup_inv (CallAnalyzer.extract_calls_from_items project items
        module_info st)
  | [], _, h => h
  | .Seq exp :: rest, st, h => by
      simp only [CallAnalyzer.extract_calls_from_items]
      exact extract_items_dedup project module_info rest _
        (extract_exp_dedup project module_info exp st h)
  | .Declare :: rest, st, h => by
      simp only [CallAnalyzer.extract_calls_from_items]
      exact extract_items_dedup project module_info rest st h
  | .Bind exp :: rest, st, h => by
      simp only [CallAnalyzer.extract_calls_from_items]
      exact extract_items_dedup project module_info rest _
        (extract_exp_dedup project module_info exp st h)
end

/-- A helper function of module m called three times by the C5 caller. -/
def c5_helper : Function :=
  { name := "helper"
    visibility := .Internal
    entry := false
    signature := { type_parameters := [], parameters := [("x", ty_u64)],
                   return_type := .Unit }
    body := .Defined (.mk [] none)
    loc := ⟨0, 0⟩ }

/-- A caller whose body invokes helper three times. -/
def c5_caller : Function :=
  { name := "caller"
    visibility := .Internal
    entry := false
    signature := { type_parameters := [], parameters := [], return_type := .Unit }
    body := .Defined (.mk
      [.Seq (.Call (.Single (.mk "helper" none)) [.Value "1"]),
       .Seq (.Call (.Single (.mk "helper" none)) [.Value "2"]),
       .Seq (.Call (.Single (.mk "helper" none)) [.Value "3"])] none)
    loc := ⟨0, 0⟩ }

/-- Module info for the C5 fixture module. -/
def c5_mi : ModuleInfo :=
  { address := zero_address, name := "m", file_path := "sources/m5.move" }

/-- The C5 fixture project: one module containing caller and helper. -/
def c5_proj : Project :=
  { modules :=
      [{ sources :=
           [("sources/m5.move",
             [.Module { address := none, name := "m",
                        members := [.Function c5_caller, .Function c5_helper] }])]
         tests := [] }] }

/-- C5: in every produced call list no two records share the same pair of
callee module name and rendered signature, and three invocations of
helper(x) collapse to the single helper edge. -/
theorem C5_deduplication :
    (∀ (project : Project) (function : Function) (module_info : ModuleInfo),
      (CallAnalyzer.analyze_calls project function module_info).Pairwise
        (fun a b => ¬(a.module = b.module ∧ a.function = b.function))) ∧
    CallAnalyzer.analyze_calls c5_proj c5_caller c5_mi =
      [{ file := "sources/m5.move", function := "helper(x: u64): ()",
         module := "m" }] := by
  constructor
  · intro project function module_info
    rw [CallAnalyzer.analyze_calls]
    cases hb : function.body with
    | Native => exact List.Pairwise.nil
    | Defined sequence =>
        have h := extract_seq_dedup project module_info sequence
          { calls := [], visited := [] } ⟨List.Pairwise.nil, by simp⟩
        refine h.1.imp ?_
        intro a b hab ⟨hm, hf⟩
        exact hab (by rw [call_key, call_key, hm, hf])
  · decide

/-!
Claim C1: exhaustiveness of the call-graph traversal.  The chain functions
below list the direct-call name chains in exactly the positions the
traversal visits; the completeness theorem proves every resolvable chain in
a visited position contributes its dedup key to the output, and the
counterexample shows that a call inside a match arm is a position the
traversal does not visit.
-/

mutual
/-- The direct-call name chains in the expression positions visited by
extract_calls_from_expression; match arms, quantifiers and spec blocks are
not visited. -/
def exp_call_chains : Exp → List NameAccessChain
  | .Call chain args => chain :: exp_list_call_chains args
  | .Dot receiver _ => exp_call_chains receiver
  | .DotCall receiver _ _ args =>
      exp_call_chains receiver ++ exp_list_call_chains args
  | .BinopExp left _ right => exp_call_chains left ++ exp_call_chains right
  | .UnaryExp _ exp => exp_call_chains exp
  | .IfElse condition then_exp (some else_branch) =>
      exp_call_chains condition ++ exp_call_chains then_exp ++
        exp_call_chains else_branch
  | .IfElse condition then_exp none =>
      exp_call_chains condition ++ exp_call_chains then_exp
  | .While condition body => exp_call_chains condition ++ exp_call_chains body
  | .Loop body => exp_call_chains body
  | .Block sequence => seq_call_chains sequence
  | .Assign lhs rhs => exp_call_chains lhs ++ exp_call_chains rhs
  | .Vector elements => exp_list_call_chains elements
  | .Pack _ fields => fields_call_chains fields
  | .Borrow _ exp => exp_call_chains exp
  | .Dereference exp => exp_call_chains exp
  | .Index base indices =>
      exp_call_chains base ++ exp_list_call_chains indices
  | .Cast exp _ => exp_call_chains exp
  | .Annotate exp _ => exp_call_chains exp
  | .ExpList expressions => exp_list_call_chains expressions
  | .Abort (some exp) => exp_call_chains exp
  | .Abort none => []
  | .MoveExp exp => exp_call_chains exp
  | .CopyExp exp => exp_call_chains exp
  | .Quant _ _ _ => []
  | .Spec => []
  | .Match scrutinee _ => exp_call_chains scrutinee
  | .Labeled _ exp => exp_call_chains exp
  | .Lambda _ body => exp_call_chains body
  | .Parens exp => exp_call_chains exp
  | .Return (some exp) => exp_call_chains exp
  | .Return none => []
  | .Break (some exp) => exp_call_chains exp
  | .Break none => []
  | .Continue => []
  | .UnresolvedError => []
  | .DotUnresolved exp => exp_call_chains exp
  | .Value _ => []
  | .Name _ => []
  | .Unit => []

/-- The visited direct-call chains of an expression list. -/
def exp_list_call_chains : List Exp → List NameAccessChain
  | [] => []
  | e :: rest => exp_call_chains e ++ exp_list_call_chains rest

/-- The visited direct-call chains of struct-pack field initializers. -/
def fields_call_chains : List (String × Exp) → List NameAccessChain
  | [] => []
  | field :: rest => exp_call_chains field.2 ++ fields_call_chains rest

/-- The visited direct-call chains of a statement sequence. -/
def seq_call_chains : Sequence → List NameAccessChain
  | .mk items (some exp) => items_call_chains items ++ exp_call_chains exp
  | .mk items none => items_call_chains items

/-- The visited direct-call chains of sequence items. -/
def items_call_chains : List SequenceItem → List NameAccessChain
  | [] => []
  | .Seq exp :: rest => exp_call_chains exp ++ items_call_chains rest
  | .Declare :: rest => items_call_chains rest
  | .Bind exp :: rest => exp_call_chains exp ++ items_call_chains rest
end

/-- The reverse seen-set invariant: every key in the seen-set is the dedup
key of some accumulated call record. -/
def keys_inv (st : CallAnalyzer.CallState) : Prop :=
  ∀ k ∈ st.visited, k ∈ st.calls.map call_key

/-- The three facts carried through the traversal for a state transformer
and the call chains it visits: the seen-set grows, the reverse seen-set
invariant is preserved, and the key of every resolvable visited chain ends
up in the seen-set. -/
def trans_ok (project : Project) (module_info : ModuleInfo)
    (f : CallAnalyzer.CallState → CallAnalyzer.CallState)
    (chains : List NameAccessChain) : Prop :=
  ∀ st : CallAnalyzer.CallState,
    st.visited ⊆ (f st).visited ∧
    (keys_inv st → keys_inv (f st)) ∧
    ∀ chain ∈ chains, ∀ info : FunctionCall,
      CallAnalyzer.resolve_call_target project chain module_info = some info →
        call_key info ∈ (f st).visited

/-- The identity transformer visits no chains. -/
theorem trans_ok_id (project : Project) (module_info : ModuleInfo) :
    trans_ok project module_info (fun st => st) [] := by
  intro st
  exact ⟨fun _ h => h, fun h => h, fun chain hc => absurd hc (List.not_mem_nil chain)⟩

/-- Transformers compose, concatenating their visited chains. -/
theorem trans_ok_comp {project : Project} {module_info : ModuleInfo}
    {f g : CallAnalyzer.CallState → CallAnalyzer.CallState}
    {cf cg : List NameAccessChain}
    (hf : trans_ok project module_info f cf)
    (hg : trans_ok project module_info g cg) :
    trans_ok project module_info (fun st => g (f st)) (cf ++ cg) := by
  intro st
  obtain ⟨hf1, hf2, hf3⟩ := hf st
  obtain ⟨hg1, hg2, hg3⟩ := hg (f st)
  refine ⟨fun a ha => hg1 (hf1 ha), fun h => hg2 (hf2 h), ?_⟩
  intro chain hc info hinfo
  rcases List.mem_append.mp hc with hc | hc
  · exact hg1 (hf3 chain hc info hinfo)
  · exact hg3 chain hc info hinfo

/-- Recording a call never removes keys from the seen-set. -/
theorem record_call_subset (st : CallAnalyzer.CallState) (info : FunctionCall)
    (key : String) :
    st.visited ⊆ (CallAnalyzer.record_call st info key).visited := by
  rw [CallAnalyzer.record_call]
  split
  · exact fun a h => h
  · exact fun a h => List.mem_append_left _ h

/-- After recording a call under its own dedup key, the key is in the
seen-set. -/
theorem record_call_mem (st : CallAnalyzer.CallState) (info : FunctionCall) :
    call_key info ∈ (CallAnalyzer.record_call st info (call_key info)).visited := by
  rw [CallAnalyzer.record_call]
  split
  · assumption
  · exact List.mem_append_right _ (List.mem_singleton.mpr rfl)

/-- Recording a call under its own dedup key preserves the reverse seen-set
invariant. -/
theorem record_call_keys (st : CallAnalyzer.CallState) (info : FunctionCall)
    (h : keys_inv st) :
    keys_inv (CallAnalyzer.record_call st info (call_key info)) := by
  rw [CallAnalyzer.record_call]
  split
  · exact h
  · intro k hk
    rcases List.mem_append.mp hk with hk | hk
    · rcases List.mem_map.mp (h k hk) with ⟨c, hc, rfl⟩
      exact List.mem_map.mpr ⟨c, List.mem_append_left _ hc, rfl⟩
    · rcases List.mem_singleton.mp hk with rfl
      exact List.mem_map.mpr ⟨info, List.mem_append_right _
        (List.mem_singleton.mpr rfl), rfl⟩

/-- The push step of the Call arm, followed by the argument traversal,
covers the call chain itself and the chains of the arguments. -/
theorem trans_ok_call (project : Project) (module_info : ModuleInfo)
    (name_chain : NameAccessChain) (args : List Exp)
    (hargs : trans_ok project module_info
      (fun st => CallAnalyzer.extract_calls_from_exp_list project args
        module_info st)
      (exp_list_call_chains args)) :
    trans_ok project module_info
      (fun st => CallAnalyzer.extract_calls_from_expression project
        (.Call name_chain args) module_info st)
      (name_chain :: exp_list_call_chains args) := by
  intro st
  simp only [CallAnalyzer.extract_calls_from_expression]
  cases hres : CallAnalyzer.resolve_call_target project name_chain module_info with
  | none =>
      obtain ⟨h1, h2, h3⟩ := hargs st
      refine ⟨h1, h2, ?_⟩
      intro chain hc info hinfo
      rcases List.mem_cons.mp hc with rfl | hc
      · rw [hres] at hinfo
        cases hinfo
      · exact h3 chain hc info hinfo
  | some call_info =>
      obtain ⟨h1, h2, h3⟩ :=
        hargs (CallAnalyzer.record_call st call_info (call_key call_info))
      refine ⟨fun a ha => h1 (record_call_subset st call_info _ ha),
        fun h => h2 (record_call_keys st call_info h), ?_⟩
      intro chain hc info hinfo
      rcases List.mem_cons.mp hc with rfl | hc
      · rw [hres] at hinfo
        cases hinfo
        exact h1 (record_call_mem st call_info)
      · exact h3 chain hc info hinfo

mutual
/-- The expression traversal satisfies the transformer facts for the
visited chains of the expression. -/
theorem extract_exp_chains (project : Project) (module_info : ModuleInfo) :
    ∀ e : Exp,
      trans_ok project module_info
        (fun st => CallAnalyzer.extract_calls_from_expression project e
          module_info st)
        (exp_call_chains e)
  | .Call name_chain args =>
      trans_ok_call project module_info name_chain args
        (extract_list_chains project module_info args)
  | .Dot receiver _ => extract_exp_chains project module_info receiver
  | .DotCall receiver method_name type_args args => by
      have h := trans_ok_comp
        (extract_exp_chains project module_info receiver)
        (extract_list_chains project module_info args)
      intro st
      have hst := h st
      simpa only [CallAnalyzer.extract_calls_from_expression,
        resolve_method_call_eq_none, ite_self] using hst
  | .BinopExp left _ right =>
      by
      have h := trans_ok_comp
        (extract_exp_chains project module_info left)
        (extract_exp_chains project module_info right)
      exact h
  | .UnaryExp _ exp => extract_exp_chains project module_info exp
  | .IfElse condition then_exp (some else_branch) =>
      by
      have h := trans_ok_comp
        (trans_ok_comp
          (extract_exp_chains project module_info condition)
          (extract_exp_chains project module_info then_exp))
        (extract_exp_chains project module_info else_branch)
      exact h
  | .IfElse condition then_exp none =>
      by
      have h := trans_ok_comp
        (extract_exp_chains project module_info condition)
        (extract_exp_chains project module_info then_exp)
      exact h
  | .While condition body =>
      by
      have h := trans_ok_comp
        (extract_exp_chains project module_info condition)
        (extract_exp_chains project module_info body)
      exact h
  | .Loop body => extract_exp_chains project module_info body
  | .Block sequence => extract_seq_chains project module_info sequence
  | .Assign lhs rhs =>
      by
      have h := trans_ok_comp
        (extract_exp_chains project module_info lhs)
        (extract_exp_chains project module_info rhs)
      exact h
  | .Vector elements => extract_list_chains project module_info elements
  | .Pack _ fields => extract_fields_chains project module_info fields
  | .Borrow _ exp => extract_exp_chains project module_info exp
  | .Dereference exp => extract_exp_chains project module_info exp
  | .Index base indices =>
      by
      have h := trans_ok_comp
        (extract_exp_chains project module_info base)
        (extract_list_chains project module_info indices)
      exact h
  | .Cast exp _ => extract_exp_chains project module_info exp
  | .Annotate exp _ => extract_exp_chains project module_info exp
  | .ExpList expressions => extract_list_chains project module_info expressions
  | .Abort (some exp) => extract_exp_chains project module_info exp
  | .Abort none => trans_ok_id project module_info
  | .MoveExp exp => extract_exp_chains project module_info exp
  | .CopyExp exp => extract_exp_chains project module_info exp
  | .Quant _ _ _ => trans_ok_id project module_info
  | .Spec => trans_ok_id project module_info
  | .Match scrutinee _ => extract_exp_chains project module_info scrutinee
  | .Labeled _ exp => extract_exp_chains project module_info exp
  | .Lambda _ body => extract_exp_chains project module_info body
  | .Parens exp => extract_exp_chains project module_info exp
  | .Return (some exp) => extract_exp_chains project module_info exp
  | .Return none => trans_ok_id project module_info
  | .Break (some exp) => extract_exp_chains project module_info exp
  | .Break none => trans_ok_id project module_info
  | .Continue => trans_ok_id project module_info
  | .UnresolvedError => trans_ok_id project module_info
  | .DotUnresolved exp => extract_exp_chains project module_info exp
  | .Value _ => trans_ok_id project module_info
  | .Name _ => trans_ok_id project module_info
  | .Unit => trans_ok_id project module_info

/-- The expression-list traversal satisfies the transformer facts. -/
theorem extract_list_chains (project : Project) (module_info : ModuleInfo) :
    ∀ es : List Exp,
      trans_ok project module_info
        (fun st => CallAnalyzer.extract_calls_from_exp_list project es
          module_info st)
        (exp_list_call_chains es)
  | [] => trans_ok_id project module_info
  | e :: rest =>
      by
      have h := trans_ok_comp
        (extract_exp_chains project module_info e)
        (extract_list_chains project module_info rest)
      exact h

/-- The field-initializer traversal satisfies the transformer facts. -/
theorem extract_fields_chains (project : Project) (module_info : ModuleInfo) :
    ∀ fields : List (String × Exp),
      trans_ok project module_info
        (fun st => CallAnalyzer.extract_calls_from_fields project fields
          module_info st)
        (fields_call_chains fields)
  | [] => trans_ok_id project module_info
  | field :: rest =>
      by
      have h := trans_ok_comp
        (extract_exp_chains project module_info field.2)
        (extract_fields_chains project module_info rest)
      exact h

/-- The sequence traversal satisfies the transformer facts. -/
theorem extract_seq_chains (project : Project) (module_info : ModuleInfo) :
    ∀ sequence : Sequence,
      trans_ok project module_info
        (fun st => CallAnalyzer.extract_calls_from_sequence project sequence
          module_info st)
        (seq_call_chains sequence)
  | .mk items (some exp) =>
      by
      have h := trans_ok_comp
        (extract_items_chains project module_info items)
        (extract_exp_chains project module_info exp)
      exact h
  | .mk items none => extract_items_chains project module_info items

/-- The sequence-item traversal satisfies the transformer facts. -/
theorem extract_items_chains (project : Project) (module_info : ModuleInfo) :
    ∀ items : List SequenceItem,
      trans_ok project module_info
        (fun st => CallAnalyzer.extract_calls_from_items project items
          module_info st)
        (items_call_chains items)
  | [] => trans_ok_id project module_info
  | .Seq exp :: rest =>
      by
      have h := trans_ok_comp
        (extract_exp_chains project module_info exp)
        (extract_items_chains project module_info rest)
      exact h
  | .Declare :: rest => extract_items_chains project module_info rest
  | .Bind exp :: rest =>
      by
      have h := trans_ok_comp
        (extract_exp_chains project module_info exp)
        (extract_items_chains project module_info rest)
      exact h
end

/-- A helper function with no parameters for the C1 fixtures. -/
def c1_helper : Function :=
  { name := "helper"
    visibility := .Internal
    entry := false
    signature := { type_parameters := [], parameters := [], return_type := .Unit }
    body := .Defined (.mk [] none)
    loc := ⟨0, 0⟩ }

/-- A caller whose only call to helper sits inside a match arm. -/
def c1_caller : Function :=
  { name := "caller"
    visibility := .Internal
    entry := false
    signature := { type_parameters := [], parameters := [], return_type := .Unit }
    body := .Defined (.mk
      [.Seq (.Match (.Name (.Single (.mk "x" none)))
        [.mk none (.Call (.Single (.mk "helper" none)) [])])] none)
    loc := ⟨0, 0⟩ }

/-- Module info for the C1 counterexample module. -/
def c1_mi : ModuleInfo :=
  { address := zero_address, name := "m", file_path := "sources/m1.move" }

/-- The C1 counterexample project. -/
def c1_proj : Project :=
  { modules :=
      [{ sources :=
           [("sources/m1.move",
             [.Module { address := none, name := "m",
                        members := [.Function c1_caller, .Function c1_helper] }])]
         tests := [] }] }

/-- C1 counterexample: the call to helper inside a match arm is resolvable,
yet the extracted call list of the caller is empty — the traversal does not
recurse into match arms. -/
theorem C1_counterexample :
    (CallAnalyzer.resolve_call_target c1_proj (.Single (.mk "helper" none))
        c1_mi).isSome = true ∧
      CallAnalyzer.analyze_calls c1_proj c1_caller c1_mi = [] := by
  refine ⟨by decide, by decide⟩

/-- C1 (amended): the traversal recurses into every sub-expression of every
expression variant except the arms of match expressions (only the
scrutinee is visited) and the bodies of quantifier and spec-block
expressions, so every resolvable call in a visited position — both branches
of if and else, while condition and body, loop bodies, nested blocks,
binary and unary operands, vector elements, struct-pack field initializers,
call and method-call receivers and arguments, and the rest of the visited
grammar — contributes a record with its callee module and rendered
signature to the extracted call list. -/
theorem C1_visited_calls_complete
    (project : Project) (module_info : ModuleInfo) (f : Function)
    (sequence : Sequence) (chain : NameAccessChain) (info : FunctionCall)
    (hbody : f.body = .Defined sequence)
    (hchain : chain ∈ seq_call_chains sequence)
    (hres : CallAnalyzer.resolve_call_target project chain module_info =
      some info) :
    call_key info ∈
      (CallAnalyzer.analyze_calls project f module_info).map call_key := by
  have heq : CallAnalyzer.analyze_calls project f module_info =
      (CallAnalyzer.extract_calls_from_sequence project sequence module_info
        { calls := [], visited := [] }).calls := by
    rw [CallAnalyzer.analyze_calls, hbody]
  rw [heq]
  obtain ⟨h1, h2, h3⟩ := extract_seq_chains project module_info sequence
    { calls := [], visited := [] }
  have hkeys : keys_inv { calls := [], visited := [] } := by
    intro k hk
    cases hk
  exact h2 hkeys _ (h3 chain hchain info hres)

/-- The helper function of the C1 witness fixture. -/
def c1w_helper : Function :=
  { name := "helper"
    visibility := .Internal
    entry := false
    signature := { type_parameters := [], parameters := [], return_type := .Unit }
    body := .Defined (.mk [] none)
    loc := ⟨0, 0⟩ }

/-- The call chain of the C1 witness fixture. -/
def c1w_chain : NameAccessChain := .Single (.mk "helper" none)

/-- A body placing the call to helper inside the then branch of an if. -/
def c1w_seq : Sequence :=
  .mk [.Seq (.IfElse (.Value "true") (.Call c1w_chain []) none)] none

/-- The caller of the C1 witness fixture. -/
def c1w_caller : Function :=
  { name := "caller"
    visibility := .Internal
    entry := false
    signature := { type_parameters := [], parameters := [], return_type := .Unit }
    body := .Defined c1w_seq
    loc := ⟨0, 0⟩ }

/-- Module info of the C1 witness fixture. -/
def c1w_mi : ModuleInfo :=
  { address := zero_address, name := "m", file_path := "sources/m1w.move" }

/-- The project of the C1 witness fixture. -/
def c1w_proj : Project :=
  { modules :=
      [{ sources :=
           [("sources/m1w.move",
             [.Module { address := none, name := "m",
                        members := [.Function c1w_caller,
                                    .Function c1w_helper] }])]
         tests := [] }] }

/-- The resolved call record of the C1 witness fixture. -/
def c1w_info : FunctionCall :=
  { file := "sources/m1w.move", function := "helper(): ()", module := "m" }

/-- Witness for C1: a call nested in the then branch of an if resolves and
its key appears in the extracted call list. -/
theorem C1_visited_calls_complete_witness :
    c1w_caller.body = .Defined c1w_seq ∧
      c1w_chain ∈ seq_call_chains c1w_seq ∧
      CallAnalyzer.resolve_call_target c1w_proj c1w_chain c1w_mi =
        some c1w_info ∧
      call_key c1w_info ∈
        (CallAnalyzer.analyze_calls c1w_proj c1w_caller c1w_mi).map call_key :=
  ⟨rfl, List.mem_singleton.mpr rfl, by decide,
    C1_visited_calls_complete c1w_proj c1w_mi c1w_caller c1w_seq c1w_chain
      c1w_info rfl (List.mem_singleton.mpr rfl) (by decide)⟩

/-!
Claim C6: the coordinator.  Degraded-record creation is infallible, so the
aggregate-error branch of analyze_function is unreachable: even when every
matched definition fails, the call returns Ok with one degraded record per
definition.
-/

/-- A function named test whose source file is absent from the file
system. -/
def c6_fn : Function :=
  { name := "test"
    visibility := .Internal
    entry := false
    signature := { type_parameters := [], parameters := [], return_type := .Unit }
    body := .Defined (.mk [] none)
    loc := ⟨0, 0⟩ }

/-- Module info of the C6 fixture; the file is missing. -/
def c6_mi : ModuleInfo :=
  { address := zero_address, name := "m", file_path := "missing.move" }

/-- The function definition record of the C6 fixture. -/
def c6_fd : FunctionDef :=
  { function := c6_fn, module_info := c6_mi, location := c6_fn.loc }

/-- The C6 fixture project. -/
def c6_proj : Project :=
  { modules :=
      [{ sources :=
           [("missing.move",
             [.Module { address := none, name := "m",
                        members := [.Function c6_fn] }])]
         tests := [] }] }

/-- The degraded record produced for the C6 fixture. -/
def c6_degraded : FunctionAnalysis :=
  { contract := "m"
    function := "test(...)"
    source :=
      "// Error analyzing function: Analysis error: Failed to extract source code: IO error: missing.move\n// Function: test\n// Module: m"
    location := { file := "missing.move", start_line := 1, end_line := 1 }
    parameters := []
    calls := [] }

/-- C6 counterexample: the single matched definition fails (its file is
unreadable), i.e. all matched definitions fail, yet analyze_function
returns Ok with the degraded record instead of propagating an aggregate
error. -/
theorem C6_counterexample :
    (FunctionAnalyzer.analyze_single_function [] c6_proj c6_fd).toOption =
        none ∧
      FunctionAnalyzer.analyze_function [] c6_proj "test" =
        .ok [c6_degraded] := by
  refine ⟨by decide, by rfl⟩

/-- C6 (amended): analyze_function fails with an analysis error (distinct
from not-found) for an empty or whitespace-only name; fails with
FunctionNotFound when the validated name matches no definition; and
otherwise returns Ok with exactly one record per matched definition,
substituting for each failing definition a degraded record (minimal
signature, synthetic source comment naming the error, default location,
empty parameter and call lists); because degraded-record creation is
infallible, the aggregate-error branch is unreachable and the call returns
Ok even when all matched definitions fail. -/
theorem C6_coordinator :
    (∀ (fs : FileSystem) (p : Project) (name : String), str_trim name = "" →
      FunctionAnalyzer.analyze_function fs p name =
        .error (.AnalysisError "Function name cannot be empty")) ∧
    (∀ (fs : FileSystem) (p : Project) (name : String), str_trim name ≠ "" →
      FunctionParser.find_functions p name = [] →
      FunctionAnalyzer.analyze_function fs p name =
        .error (.FunctionNotFound name)) ∧
    (∀ (fs : FileSystem) (p : Project) (defs : List FunctionDef)
        (acc : List FunctionAnalysis × List String),
      (FunctionAnalyzer.analysis_loop fs p defs acc).1.length =
        acc.1.length + defs.length) ∧
    (∀ (fs : FileSystem) (p : Project) (name : String), str_trim name ≠ "" →
      FunctionParser.find_functions p name ≠ [] →
      ∃ results, FunctionAnalyzer.analyze_function fs p name = .ok results ∧
        results.length = (FunctionParser.find_functions p name).length) ∧
    (∀ (fd : FunctionDef) (e : AnalyzerError),
      FunctionAnalyzer.create_partial_analysis fd e =
        .ok { contract := fd.module_info.name
              function := fd.function.name ++ "(...)"
              source := "// Error analyzing function: " ++ e.display ++
                "\n// Function: " ++ fd.function.name ++ "\n// Module: " ++
                fd.module_info.name
              location := { file := fd.module_info.file_path, start_line := 1,
                            end_line := 1 }
              parameters := []
              calls := [] }) := by
  have hloop : ∀ (fs : FileSystem) (p : Project) (defs : List FunctionDef)
      (acc : List FunctionAnalysis × List String),
      (FunctionAnalyzer.analysis_loop fs p defs acc).1.length =
        acc.1.length + defs.length := by
    intro fs p defs
    induction defs with
    | nil => intro acc; simp [FunctionAnalyzer.analysis_loop]
    | cons fd rest ih =>
        intro acc
        obtain ⟨results, errors⟩ := acc
        rw [FunctionAnalyzer.analysis_loop]
        cases FunctionAnalyzer.analyze_single_function fs p fd with
        | ok analysis =>
            rw [ih]
            simp [Nat.add_comm, Nat.add_assoc, Nat.add_left_comm]
        | error e =>
            simp only [FunctionAnalyzer.create_partial_analysis]
            rw [ih]
            simp [Nat.add_comm, Nat.add_assoc, Nat.add_left_comm]
  refine ⟨?_, ?_, hloop, ?_, ?_⟩
  · intro fs p name h
    rw [FunctionAnalyzer.analyze_function]
    simp [h]
  · intro fs p name h hempty
    rw [FunctionAnalyzer.analyze_function]
    simp [h, hempty]
  · intro fs p name h hnonempty
    rw [FunctionAnalyzer.analyze_function]
    have hlen := hloop fs p (FunctionParser.find_functions p name) ([], [])
    have hlane : (FunctionAnalyzer.analysis_loop fs p
        (FunctionParser.find_functions p name) ([], [])).1 ≠ [] := by
      intro he
      have : (FunctionParser.find_functions p name).length = 0 := by
        have := hlen
        rw [he] at this
        simpa using this.symm
      exact hnonempty (List.length_eq_zero.mp this)
    refine ⟨(FunctionAnalyzer.analysis_loop fs p
      (FunctionParser.find_functions p name) ([], [])).1, ?_, ?_⟩
    · simp only [if_neg h, List.isEmpty_eq_false.mpr hnonempty,
        Bool.false_eq_true, if_false, List.isEmpty_eq_false.mpr hlane]
    · simpa using hlen
  · intro fd e
    rfl

/-- Witness for C6: the empty name yields the validation error, a missing
name yields FunctionNotFound, and the fixture name test yields Ok with one
record even though its only definition fails. -/
theorem C6_coordinator_witness :
    FunctionAnalyzer.analyze_function [] c6_proj "" =
        .error (.AnalysisError "Function name cannot be empty") ∧
      FunctionAnalyzer.analyze_function [] c6_proj "nope" =
        .error (.FunctionNotFound "nope") ∧
      ∃ results, FunctionAnalyzer.analyze_function [] c6_proj "test" =
        .ok results ∧ results.length = 1 := by
  refine ⟨C6_coordinator.1 [] c6_proj "" rfl,
    C6_coordinator.2.1 [] c6_proj "nope" (by decide) rfl, ?_⟩
  obtain ⟨results, hr, hl⟩ :=
    C6_coordinator.2.2.2.1 [] c6_proj "test" (by decide)
      (fun h => List.noConfusion h)
  exact ⟨results, hr, by rw [hl]; rfl⟩

/-!
Claim C9: emitted source text versus reported location.  The emitted
source text is extended backward over blank and documentation lines, but
the coordinator computes the reported location with its own
create_location_info, which takes both line numbers directly from the byte
offsets without the backward extension.
-/

/-- The C9 source file: a doc comment on line 2, the function on line 3. -/
def c9_content : String :=
  "module m \x7b\n/// doc\nfun f(): u64 \x7b 1 \x7d\n\x7d"

/-- The C9 function, spanning exactly line 3 of the file. -/
def c9_fn : Function :=
  { name := "f"
    visibility := .Internal
    entry := false
    signature := { type_parameters := [], parameters := [], return_type := ty_u64 }
    body := .Defined (.mk [] (some (.Value "1")))
    loc := ⟨19, 37⟩ }

/-- Module info of the C9 fixture. -/
def c9_mi : ModuleInfo :=
  { address := zero_address, name := "m", file_path := "sources/m9.move" }

/-- Function definition record of the C9 fixture. -/
def c9_fd : FunctionDef :=
  { function := c9_fn, module_info := c9_mi, location := c9_fn.loc }

/-- The C9 fixture project. -/
def c9_proj : Project :=
  { modules :=
      [{ sources :=
           [("sources/m9.move",
             [.Module { address := none, name := "m",
                        members := [.Function c9_fn] }])]
         tests := [] }] }

/-- The C9 file system. -/
def c9_fs : FileSystem := [("sources/m9.move", c9_content)]

/-- C9 counterexample: the emitted source text starts with the doc-comment
line (line 2 of the file, as returned by the doc-extended extraction), but
the reported start line is 3 — the location is not extended backward over
the doc lines the source text includes. -/
theorem C9_counterexample :
    FunctionAnalyzer.analyze_single_function c9_fs c9_proj c9_fd =
        .ok { contract := "m"
              function := "fun f(): u64"
              source := "/// doc\nfun f(): u64 \x7b 1 \x7d"
              location := { file := "sources/m9.move", start_line := 3,
                            end_line := 3 }
              parameters := []
              calls := [] } ∧
      FunctionParser.extract_function_with_docs c9_content 3 3 =
        .ok (2, ["/// doc", "fun f(): u64 \x7b 1 \x7d"]) ∧
      (3 : Nat) ≠ 2 := by
  refine ⟨by rfl, by rfl, by decide⟩

/-- C9 (amended): the emitted source text includes the contiguous run of
blank or documentation-comment lines preceding the declaration, but the
reported location is not extended backward: the coordinator computes both
the start line and the end line directly from the byte offsets of the span,
so the reported start line is the line of the span's start offset, not the
line of the first emitted source line. -/
theorem C9_location_unextended :
    (∀ (fs : FileSystem) (fd : FunctionDef) (content : String),
      fs_read fs fd.module_info.file_path = some content →
      FunctionAnalyzer.create_location_info fs fd =
        .ok { file := fd.module_info.file_path
              start_line := FunctionAnalyzer.get_line_number_from_offset
                content fd.location.start
              end_line := FunctionAnalyzer.get_line_number_from_offset
                content fd.location.end_ }) ∧
    FunctionParser.extract_source_code c9_fs c9_fd =
      .ok "/// doc\nfun f(): u64 \x7b 1 \x7d" := by
  constructor
  · intro fs fd content h
    simp only [FunctionAnalyzer.create_location_info, h]
  · rfl

/-- Witness for C9: at the fixture, the file is readable and the reported
location carries the unextended lines 3 to 3. -/
theorem C9_location_unextended_witness :
    fs_read c9_fs c9_fd.module_info.file_path = some c9_content ∧
      FunctionAnalyzer.create_location_info c9_fs c9_fd =
        .ok { file := "sources/m9.move", start_line := 3, end_line := 3 } :=
  ⟨rfl, C9_location_unextended.1 c9_fs c9_fd c9_content rfl⟩

/-!
Claim C10: offsets, panics, and truncation.  The backward doc scan is
proven in bounds (no panic), invalid computed line numbers produce the
analysis error, but a byte offset exceeding the file length is not itself
detected: the computed line numbers still fall inside the file and
extraction silently truncates.
-/

/-- The C10 file content, five bytes long. -/
def c10_content : String := "ab\ncd"

/-- Module info of the C10 fixture; the span end offset 100 exceeds the
five-byte file. -/
def c10_mi : ModuleInfo :=
  { address := zero_address, name := "m", file_path := "sources/m10.move" }

/-- A function definition whose span end offset exceeds the file length. -/
def c10_fd : FunctionDef :=
  { function :=
      { name := "f"
        visibility := .Internal
        entry := false
        signature := { type_parameters := [], parameters := [],
                       return_type := .Unit }
        body := .Defined (.mk [] none)
        loc := ⟨0, 100⟩ }
    module_info := c10_mi
    location := ⟨0, 100⟩ }

/-- The C10 file system. -/
def c10_fs : FileSystem := [("sources/m10.move", c10_content)]

/-- C10 counterexample: the span end offset 100 exceeds the five-byte file,
yet source extraction returns Ok with the whole file — it silently
truncates to the end of the file instead of returning an analysis error. -/
theorem C10_counterexample :
    c10_content.data.length = 5 ∧
      c10_fd.location.end_ = 100 ∧
      FunctionParser.extract_function_with_docs c10_content
          (FunctionParser.get_line_number_from_offset c10_content 0)
          (FunctionParser.get_line_number_from_offset c10_content 100) =
        .ok (1, ["ab", "cd"]) ∧
      FunctionParser.extract_source_code c10_fs c10_fd = .ok "ab\ncd" := by
  refine ⟨by decide, by decide, by rfl, by rfl⟩

/-- C10 (amended): converting byte offsets to line numbers and extracting
source text never panics — the backward doc scan always reads in bounds —
and when the computed line numbers are invalid (start zero or beyond the
line count, or end beyond the line count) extraction returns an analysis
error; but a span byte offset exceeding the file length is not itself
detected: the line numbers computed from it still fall within the file and
extraction silently truncates to the end of the file. -/
theorem C10_offset_handling :
    (∀ (lines : List String) (doc_start actual_start_line : Nat),
      doc_start ≤ lines.length →
      (FunctionParser.doc_scan lines doc_start actual_start_line).isSome =
        true) ∧
    (∀ (content : String) (start_line end_line : Nat),
      (start_line = 0 ∨ start_line > (rust_lines content).length ∨
        end_line > (rust_lines content).length) →
      FunctionParser.extract_function_with_docs content start_line end_line =
        .error (.AnalysisError "Invalid line numbers for function location")) := by
  constructor
  · exact FunctionParser.doc_scan_isSome
  · intro content start_line end_line h
    rw [FunctionParser.extract_function_with_docs]
    simp only [dif_pos h]

/-- Witness for C10: the doc scan of a two-line file from index two is in
bounds, and start line zero produces the analysis error. -/
theorem C10_offset_handling_witness :
    ((2 : Nat) ≤ (["ab", "cd"] : List String).length ∧
      (FunctionParser.doc_scan ["ab", "cd"] 2 3).isSome = true) ∧
    (((0 : Nat) = 0 ∨ (0 : Nat) > (rust_lines "ab\ncd").length ∨
        (2 : Nat) > (rust_lines "ab\ncd").length) ∧
      FunctionParser.extract_function_with_docs "ab\ncd" 0 2 =
        .error (.AnalysisError "Invalid line numbers for function location")) :=
  ⟨⟨by decide, C10_offset_handling.1 ["ab", "cd"] 2 3 (by decide)⟩,
   ⟨Or.inl rfl, C10_offset_handling.2 "ab\ncd" 0 2 (Or.inl rfl)⟩⟩

end SuiMoveAnalyzer
